import Mathlib

/-!
# GoDCCP: header codec, connection teardown and the CCID3 rate calculator

A shallow embedding of `dccp/read.go` (`ReadGenericHeader`, `readOptions`,
`sanitizeOptions`), of `dccp/user.go` (`Conn.Close`), of the timer tasks of
`dccp/conngoto.go`, and of `dccp/ccid3/x.go` (`rateCalculator`, `xRecvSet`).

Conventions of the embedding:
* Go `uint32` values are natural numbers below `2^32`; every `uint32` product is reduced
  modulo `2^32` where the source multiplies.
* Go `int64` values are integers in `[-2^63, 2^63)`; sums, differences and products are
  reduced by `wrap64`, division truncates toward zero.
* A Go `panic` (explicit, index or slice out of range, division by zero) is the result
  `none`; `Close` records which `panic` statement was reached.
* An `os.Error` result is an `Except Err`.
-/

namespace GoDCCP

/-! ## Machine arithmetic -/

/-- Two's-complement reduction of an integer into the `int64` range. -/
def wrap64 (z : Int) : Int := (z + 2 ^ 63) % 2 ^ 64 - 2 ^ 63

/-- Go conversion `uint32(z)` of an `int64` value. -/
def toU32 (z : Int) : Nat := (z % 2 ^ 32).toNat

/-- Reduction of a `uint32` arithmetic result. -/
def u32 (n : Nat) : Nat := n % 2 ^ 32

/-- Go `int64` division: panics on a zero divisor, truncates toward zero, wraps. -/
def div64 (a b : Int) : Option Int :=
  if b = 0 then none else some (wrap64 (Int.tdiv a b))

/-- Modelled from the spec: `minu32` is declared outside the sources at hand; the spec writes
it as `min` of two rates. -/
def minu32 (a b : Nat) : Nat := if a < b then a else b

/-- Modelled from the spec: `maxu32` is declared outside the sources at hand; the spec writes
it as `max` of two rates. -/
def maxu32 (a b : Nat) : Nat := if a > b then a else b

/-- Modelled from the spec: `max64` is declared outside the sources at hand; the spec writes
it as `max` of two `int64` values. -/
def max64 (a b : Int) : Int := if a > b then a else b

/-! ## `ccid3/x.go`: constants -/

/-- Maximum size of the initial window in bytes. -/
def X_MAX_INIT_WIN : Nat := 4380

/-- Maximum backoff interval in ns. -/
def X_MAX_BACKOFF_INTERVAL : Nat := 64000000000

/-- Maximum receive rate (`math.MaxInt32`). -/
def X_RECV_MAX : Nat := 2147483647

/-- Size of `x_recv_set`. -/
def X_RECV_SET_SIZE : Nat := 3

/-! ## `ccid3/x.go`: `xRecvSet` -/

/-- One slot of the receive-rate history: `Time = 0` means unset. -/
structure xRecvEntry where
  Rate : Nat
  Time : Int
  deriving DecidableEq, Repr

/-- The receive-rate history; the Go array has `X_RECV_SET_SIZE` slots. -/
structure xRecvSet where
  set : List xRecvEntry
  deriving DecidableEq, Repr

/-- The zero value `xRecvEntry{}`. -/
def xRecvEntry.zero : xRecvEntry := ⟨0, 0⟩

/-- `xRecvSet.Init`: every slot is reset to the zero entry. -/
def xRecvSet.Init (t : xRecvSet) : xRecvSet :=
  ⟨t.set.map (fun _ => xRecvEntry.zero)⟩

/-- `xRecvSet.Halve`: every rate is halved. -/
def xRecvSet.Halve (t : xRecvSet) : xRecvSet :=
  ⟨t.set.map (fun e => { e with Rate := e.Rate / 2 })⟩

/-- One iteration of the loop of `Max` over the pair `(set, r)`. -/
def maxStep (acc : Bool × Nat) (e : xRecvEntry) : Bool × Nat :=
  if e.Time ≤ 0 then acc
  else if e.Rate > acc.2 then (true, e.Rate)
  else acc

/-- `xRecvSet.Max`. -/
def xRecvSet.Max (t : xRecvSet) : Nat :=
  let acc := t.set.foldl maxStep (false, 0)
  if !acc.1 then X_RECV_MAX else acc.2

/-- One iteration of the loop of `Maximize` on the running value of `x_recv_bps`. -/
def maximizeStep (x_recv_bps : Nat) (e : xRecvEntry) : Nat :=
  if e.Time > 0 then maxu32 x_recv_bps e.Rate else x_recv_bps

/-- `xRecvSet.Maximize`: the loop clears every slot, then slot 0 is written. -/
def xRecvSet.Maximize (t : xRecvSet) (now : Int) (x_recv_bps : Nat) : xRecvSet :=
  let m := t.set.foldl maximizeStep x_recv_bps
  let cleared := t.set.map (fun _ => xRecvEntry.zero)
  ⟨cleared.set 0 ⟨m, now⟩⟩

/-- One iteration of the first loop of `Update`: entries older than two RTT are removed. -/
def evict (now rtt : Int) (e : xRecvEntry) : xRecvEntry :=
  if e.Time > 0 ∧ wrap64 (now - e.Time) > wrap64 (2 * rtt) then xRecvEntry.zero else e

/-- The second loop of `Update` from index `i` on, with the current `j` and `j_time`;
returns the final `j`. -/
def findSlot : List xRecvEntry → Int → Int → Int → Int
  | [], _, j, _ => j
  | e :: es, i, j, j_time =>
    if e.Time ≤ 0 then i
    else if e.Time ≤ j_time then findSlot es (i + 1) i e.Time
    else findSlot es (i + 1) j j_time

/-- `xRecvSet.Update`; indexing the array with an out-of-range `j` panics. -/
def xRecvSet.Update (t : xRecvSet) (now : Int) (x_recv_bps : Nat) (rtt : Int) :
    Option xRecvSet :=
  let s := t.set.map (evict now rtt)
  let j := findSlot s 0 (-1) now
  if 0 ≤ j ∧ j < s.length then some ⟨s.set j.toNat ⟨x_recv_bps, now⟩⟩ else none

/-! ## `ccid3/x.go`: `rateCalculator` -/

/-- The sender-side rate calculator. -/
structure rateCalculator where
  x : Nat
  tld : Int
  recv_limit : Nat
  xRecvSet : xRecvSet
  deriving DecidableEq, Repr

/-- `rateCalculator.Init`. -/
def rateCalculator.Init (t : rateCalculator) (_now : Int) (ss : Nat) : rateCalculator :=
  { x := ss, tld := 0, recv_limit := X_RECV_MAX, xRecvSet := t.xRecvSet.Init }

/-- `initRate`: panics unless `ss > 0` and `rtt > 0`. -/
def initRate (ss : Nat) (rtt : Int) : Option Nat :=
  if ss ≤ 0 ∨ rtt ≤ 0 then none
  else
    let win := minu32 (u32 (4 * ss)) (maxu32 (u32 (2 * ss)) X_MAX_INIT_WIN)
    (div64 (wrap64 (1000000000 * (win : Int))) rtt).map (fun q => toU32 (max64 q 1))

/-- `rateCalculator.onFirstRead`. -/
def rateCalculator.onFirstRead (t : rateCalculator) (now : Int) (ss : Nat) (rtt : Int) :
    Option (rateCalculator × Nat) :=
  (initRate ss rtt).map (fun r => ({ t with tld := now, x := r }, r))

/-- `thruEqQ` over the table of `Q` values (the table itself is declared outside the sources at
hand and is a parameter); an index outside the table panics. -/
def thruEqQ (qTable : List Int) (lossRateInv : Nat) : Option Int :=
  let j : Int := min (lossRateInv : Int) (qTable.length : Int)
  if j - 1 < 0 then none else qTable.get? (j - 1).toNat

/-- `rateCalculator.thruEq`. -/
def thruEq (qTable : List Int) (ss : Nat) (rtt : Int) (lossRateInv : Nat) : Option Nat :=
  (thruEqQ qTable lossRateInv).bind (fun q =>
    (div64 (wrap64 (1000000000000 * (ss : Int))) (wrap64 (rtt * q))).map toU32)

/-- The floor `(1e9*ss) / X_MAX_BACKOFF_INTERVAL` of `OnRead`. The product `1e9*ss` is a
`uint32` product and is reduced like every other one. The constant `64e9` is not a `uint32`
value, so the line does not compile as it stands; the quotient of the reduced product by
`64e9` is taken over the integers. -/
def backoffFloor (ss : Nat) : Nat := u32 (1000000000 * ss) / X_MAX_BACKOFF_INTERVAL

/-- `rateCalculator.OnRead`. The two conditions the source leaves open (the interval was
data-limited; the feedback reports a new loss event or an increased loss event rate) are the
arguments `dataLimited` and `lossIncrease`. -/
def rateCalculator.OnRead (qTable : List Int) (t : rateCalculator) (now : Int) (ss : Nat)
    (x_recv : Nat) (rtt : Int) (lossRateInv : Nat) (_newLoss : Bool)
    (dataLimited lossIncrease : Bool) : Option (rateCalculator × Nat) :=
  if t.tld ≤ 0 then t.onFirstRead now ss rtt
  else
    let t1 : Option rateCalculator :=
      if dataLimited then
        if lossIncrease then
          let s := (t.xRecvSet.Halve).Maximize now (u32 (85 * x_recv) / 100)
          some { t with xRecvSet := s, recv_limit := s.Max }
        else
          let s := t.xRecvSet.Maximize now x_recv
          some { t with xRecvSet := s, recv_limit := u32 (2 * s.Max) }
      else
        (t.xRecvSet.Update now x_recv rtt).map
          (fun s => { t with xRecvSet := s, recv_limit := u32 (2 * s.Max) })
    t1.bind (fun t1 =>
      if lossRateInv > 0 then
        (thruEq qTable ss rtt lossRateInv).map (fun x_eq =>
          let x := maxu32 (minu32 x_eq t1.recv_limit) (backoffFloor ss)
          ({ t1 with x := x }, x))
      else if wrap64 (now - t1.tld) ≥ rtt then
        (initRate ss rtt).map (fun r =>
          let x := maxu32 (minu32 (u32 (2 * t1.x)) t1.recv_limit) r
          ({ t1 with x := x, tld := now }, x))
      else some (t1, t1.x))

/-! ## `dccp/read.go`: options -/

/-- Error values returned by the header codec. -/
inductive Err where
  | ErrSize
  | ErrSemantic
  | ErrNumeric
  | ErrChecksum
  | ErrAlign
  | ErrOption
  deriving DecidableEq, Repr

/-- The Go struct `Option` (option type, payload, mandatory flag). -/
structure WireOption where
  Type_ : Int
  Data : List Nat
  Mandatory : Bool
  deriving DecidableEq, Repr

/-- The option catalog: constants and predicates that `read.go` uses and that are declared
outside the sources at hand. -/
structure Catalog where
  OptionPadding : Int
  OptionMandatory : Int
  isOptionSingleByte : Int → Bool
  isOptionValidForType : Int → Int → Bool

/-- The loop of `readOptions` on the unread part `buf[k:]` of the buffer; the result is the
list of options appended from here on. A truncated option ends the loop. -/
def readLoop (c : Catalog) : List Nat → List WireOption
  | [] => []
  | t :: rest =>
    if c.isOptionSingleByte (t : Int) then
      ⟨(t : Int), [], false⟩ :: readLoop c rest
    else
      match rest with
      | [] => []
      | l :: rest2 =>
        if l < 2 ∨ rest2.length < l - 2 then []
        else ⟨(t : Int), rest2.take (l - 2), false⟩ :: readLoop c (rest2.drop (l - 2))
termination_by b => b.length
decreasing_by
  all_goals simp_wf
  all_goals omega

/-- `readOptions`. -/
def readOptions (c : Catalog) (buf : List Nat) : Except Err (List WireOption) :=
  if buf.length >>> 2 ≠ 0 then .error Err.ErrAlign
  else .ok (readLoop c buf)

/-- The loop of `sanitizeOptions` on the options not yet visited, with the current value of
`nextIsMandatory`; the result is the list of options emitted from here on. -/
def sanitizeLoop (c : Catalog) (pktType : Int) : List WireOption → Bool →
    Except Err (List WireOption)
  | [], nextIsMandatory => if nextIsMandatory then .error Err.ErrOption else .ok []
  | o :: os, nextIsMandatory =>
    if !c.isOptionValidForType o.Type_ pktType then
      if nextIsMandatory then .error Err.ErrOption
      else sanitizeLoop c pktType os false
    else if o.Type_ = c.OptionMandatory then
      if nextIsMandatory then .error Err.ErrOption
      else sanitizeLoop c pktType os true
    else if o.Type_ = c.OptionPadding then sanitizeLoop c pktType os false
    else
      (sanitizeLoop c pktType os false).map
        (fun r => (if nextIsMandatory then { o with Mandatory := true } else o) :: r)

/-- `sanitizeOptions`. -/
def sanitizeOptions (c : Catalog) (pktType : Int) (opts : List WireOption) :
    Except Err (List WireOption) :=
  sanitizeLoop c pktType opts false

/-- A concrete catalog with the RFC 4340 numbering (Padding = 0, Mandatory = 1, option types
below 32 are single-byte) in which every option is valid for every packet type; it is used
to evaluate the codec on concrete inputs. -/
def rfcCatalog : Catalog :=
  { OptionPadding := 0
    OptionMandatory := 1
    isOptionSingleByte := fun t => decide (t < 32)
    isOptionValidForType := fun _ _ => true }

/-- The Go zero value of `rateCalculator`. -/
def rateCalculator.zero : rateCalculator :=
  ⟨0, 0, 0, ⟨[xRecvEntry.zero, xRecvEntry.zero, xRecvEntry.zero]⟩⟩

/-- The initial rate as the specification words it, over the mathematical integers:
`max(1, floor(1e9 * W / rtt))` with `W = min(4*ss, max(2*ss, 4380))`. -/
def initRateSpec (ss : Nat) (rtt : Int) : Int :=
  max 1 ((1000000000 * (min (4 * ss) (max (2 * ss) 4380) : Nat) : Int) / rtt)

/-- A slot is occupied when its timestamp is set: the test `e.Time > 0` of `Max`, `Maximize`
and `Update`. -/
def xRecvEntry.occupied (e : xRecvEntry) : Bool := decide (0 < e.Time)

/-- The slot choice of `Update` as the specification words it: the first empty slot or, if
no slot is empty, the slot of smallest time, the lowest index among ties. -/
def pickSlotSpec (s : List xRecvEntry) : Nat :=
  if s.any (fun e => decide (e.Time ≤ 0)) then s.findIdx (fun e => decide (e.Time ≤ 0))
  else s.findIdx (fun e => s.all (fun e2 => decide (e.Time ≤ e2.Time)))

/-- The eviction rule as the specification words it, over the mathematical integers: a slot
with `time > 0` and `now - time > 2*rtt` is emptied. -/
def evictRule (now rtt : Int) (e : xRecvEntry) : xRecvEntry :=
  if 0 < e.Time ∧ 2 * rtt < now - e.Time then xRecvEntry.zero else e

/-- `Update` as the specification words it: evict, pick a slot, write `{x_recv, now}`. -/
def xRecvSet.UpdateSpec (t : xRecvSet) (now : Int) (x_recv : Nat) (rtt : Int) : xRecvSet :=
  let s := t.set.map (evictRule now rtt)
  ⟨s.set (pickSlotSpec s) ⟨x_recv, now⟩⟩

/-- The fields of an option that `sanitizeOptions` copies unchanged. -/
def optKey (o : WireOption) : Int × List Nat := (o.Type_, o.Data)

/-- The element before an option is a Mandatory marker that the loop of `sanitizeOptions`
accepts: it is valid for the packet type and its type is `OptionMandatory`. -/
def isMarker (c : Catalog) (pktType : Int) : Option WireOption → Bool
  | none => false
  | some p => c.isOptionValidForType p.Type_ pktType && decide (p.Type_ = c.OptionMandatory)

/-- What becomes of an input option, given the element before it (if any): an option that is
valid for the packet type and neither a Mandatory marker nor Padding is emitted, with
`Mandatory` set when the element before it is a marker and kept as it was otherwise. -/
def stampSpec (c : Catalog) (pktType : Int) (p : Option WireOption × WireOption) :
    Option WireOption :=
  if c.isOptionValidForType p.2.Type_ pktType = true ∧ p.2.Type_ ≠ c.OptionMandatory ∧
      p.2.Type_ ≠ c.OptionPadding then
    some { p.2 with Mandatory := p.2.Mandatory || isMarker c pktType p.1 }
  else none

/-- A pending Mandatory marker fails on what follows it: the list ends, or the next element
is another Mandatory marker, or the next element is not valid for the packet type. -/
def failsAfterMarker (c : Catalog) (pktType : Int) : List WireOption → Prop
  | [] => True
  | n :: _ => n.Type_ = c.OptionMandatory ∨ c.isOptionValidForType n.Type_ pktType = false

/-- Some Mandatory marker in the list is immediately followed by another Mandatory marker, or
by an option that is not valid for the packet type, or is the last element of the list. -/
def hasMisplacedMarker (c : Catalog) (pktType : Int) (opts : List WireOption) : Prop :=
  ∃ pre m post, opts = pre ++ m :: post ∧ m.Type_ = c.OptionMandatory ∧
    failsAfterMarker c pktType post

/-! ## `dccp/user.go`, `dccp/conngoto.go`: the connection -/

/-- The nine connection states. -/
inductive State where
  | CLOSED
  | LISTEN
  | REQUEST
  | RESPOND
  | PARTOPEN
  | OPEN
  | CLOSEREQ
  | CLOSING
  | TIMEWAIT
  deriving DecidableEq, Repr

/-- Sticky errors of a connection. -/
inductive ConnError where
  | ErrEOF
  | ErrIO
  deriving DecidableEq, Repr

/-- Reset codes used by the user API. -/
inductive ResetCode where
  | ResetClosed
  | ResetAborted
  deriving DecidableEq, Repr

/-- What is handed to `inject`: a generated packet, or `nil` (which only wakes the write
loop). -/
inductive Packet where
  | Request
  | Ack
  | Sync
  | Close
  | Reset (code : ResetCode)
  | wake
  deriving DecidableEq, Repr

/-- The timer tasks started by the `goto` functions, named after the function. -/
inductive Timer where
  | LISTEN
  | RESPOND
  | REQUEST
  | PARTOPEN
  | CLOSING
  | TIMEWAIT
  deriving DecidableEq, Repr

/-- The part of `Conn` that `Close` and the `goto` functions read and write: the socket
state, the sticky error, the packets injected so far (oldest first), whether the user side
was torn down, and the timer tasks started so far. -/
structure Conn where
  state : State
  err : Option ConnError
  injected : List Packet
  userTornDown : Bool
  timers : List Timer
  deriving DecidableEq, Repr

/-- Modelled from the spec: `inject` is declared outside the sources at hand; it puts a packet
into the outgoing queue. -/
def Conn.inject (c : Conn) (p : Packet) : Conn :=
  { c with injected := c.injected ++ [p] }

/-- Modelled from the spec: `teardownUser` is declared outside the sources at hand; it tears
down the user queues. -/
def Conn.teardownUser (c : Conn) : Conn :=
  { c with userTornDown := true }

/-- `Conn.gotoCLOSED`. -/
def Conn.gotoCLOSED (c : Conn) : Conn :=
  { c.teardownUser with state := State.CLOSED }

/-- `Conn.gotoCLOSING`: tears down the user side, sets the state and starts the Close
back-off task. -/
def Conn.gotoCLOSING (c : Conn) : Conn :=
  { c.teardownUser with state := State.CLOSING, timers := c.timers ++ [Timer.CLOSING] }

/-- Modelled from the spec: `reset` is declared outside the sources at hand; it moves the
connection to CLOSED via a Reset with the given code and sets the sticky error. -/
def Conn.reset (c : Conn) (code : ResetCode) (e : ConnError) : Conn :=
  { (c.inject (Packet.Reset code)).gotoCLOSED with err := some e }

/-- The two `panic` statements of `Close`. -/
inductive ClosePanic where
  | unknownState
  | withoutError (s : State)
  deriving DecidableEq, Repr

/-- How a call of `Close` ends: it returns an error value (`none` is `nil`), or it panics. -/
inductive CloseResult where
  | returns (e : Option ConnError)
  | panics (p : ClosePanic)
  deriving DecidableEq, Repr

/-- The `switch` of `Close`: the connection after the case that ran, and how the case ended;
`none` when the case ran to its end without a `return` or `panic`, so that control leaves the
`switch`. -/
def Conn.closeSwitch (c : Conn) : Conn × Option CloseResult :=
  match c.state with
  | State.LISTEN =>
    (c.reset ResetCode.ResetClosed ConnError.ErrEOF, some (CloseResult.returns none))
  | State.REQUEST =>
    (c.reset ResetCode.ResetClosed ConnError.ErrEOF, some (CloseResult.returns none))
  | State.RESPOND => (c.reset ResetCode.ResetClosed ConnError.ErrEOF, none)
  | State.PARTOPEN => ((c.inject Packet.Close).gotoCLOSING, some (CloseResult.returns none))
  | State.OPEN => ((c.inject Packet.Close).gotoCLOSING, some (CloseResult.returns none))
  | s =>
    match c.err with
    | none => (c, some (CloseResult.panics (ClosePanic.withoutError s)))
    | some e => (c, some (CloseResult.returns (some e)))

/-- `Conn.Close`: the `switch`, followed by `panic("unknown state")`. -/
def Conn.Close (c : Conn) : Conn × CloseResult :=
  match c.closeSwitch with
  | (c2, some r) => (c2, r)
  | (c2, none) => (c2, CloseResult.panics ClosePanic.unknownState)

/-- What a timer task does after it wakes. -/
inductive Action where
  | inject (p : Packet)
  | abort
  | abortQuietly
  | gotoTIMEWAIT
  deriving DecidableEq, Repr

/-- The state a timer task is meant for. -/
def Timer.gate : Timer → State
  | Timer.LISTEN => State.LISTEN
  | Timer.RESPOND => State.RESPOND
  | Timer.REQUEST => State.REQUEST
  | Timer.PARTOPEN => State.PARTOPEN
  | Timer.CLOSING => State.CLOSING
  | Timer.TIMEWAIT => State.TIMEWAIT

/-- One wake-up of the body of a timer task: `state` is what `GetState` returns after the
sleep (the TIMEWAIT task does not call it), `expired` says that the back-off `Sleep` returned
an error. The result is what the body does, in order, and whether its loop goes on. -/
def timerWake (tm : Timer) (state : State) (expired : Bool) : List Action × Bool :=
  match tm with
  | Timer.LISTEN =>
    if state ≠ State.LISTEN then ([], false) else ([Action.abortQuietly], false)
  | Timer.RESPOND =>
    if state = State.RESPOND then ([Action.abortQuietly], false) else ([], false)
  | Timer.REQUEST =>
    if state ≠ State.REQUEST then ([], false)
    else if expired then ([Action.abort], false)
    else ([Action.inject Packet.Request], true)
  | Timer.PARTOPEN =>
    if state ≠ State.PARTOPEN then ([], false)
    else if expired then ([Action.abort], false)
    else ([Action.inject Packet.Ack, Action.inject Packet.Sync], true)
  | Timer.CLOSING =>
    if state ≠ State.CLOSING then ([], false)
    else if expired then ([Action.gotoTIMEWAIT], false)
    else ([Action.inject Packet.Close], true)
  | Timer.TIMEWAIT => ([Action.abortQuietly], false)

/-! ## `dccp/read.go`: `ReadGenericHeader` -/

/-- The decoded generic header, with the fields that `ReadGenericHeader` reads or writes. -/
structure GenericHeader where
  SourcePort : Nat
  DestPort : Nat
  CCVal : Nat
  CsCov : Nat
  Type_ : Int
  X : Bool
  SeqNo : Nat
  AckNo : Nat
  ServiceCode : Nat
  Reset : List Nat
  Data : List Nat
  deriving DecidableEq, Repr

/-- The Go zero value `GenericHeader{}`. -/
def GenericHeader.zero : GenericHeader :=
  ⟨0, 0, 0, 0, 0, false, 0, 0, 0, [], []⟩

/-- What `ReadGenericHeader` uses and is declared outside the sources at hand: the option
catalog, the packet type constants, the size tables, the type/X compatibility test and the
checksum primitives. -/
structure Codec where
  catalog : Catalog
  Request : Int
  Response : Int
  Data : Int
  Reset : Int
  areTypeAndXCompatible : Int → Bool → Bool → Bool
  calcFixedHeaderSize : Int → Bool → Int
  calcAckNoSubheaderSize : Int → Bool → Int
  csumSum : List Nat → Nat
  csumAdd : Nat → Nat → Nat
  csumPseudoIP : List Nat → List Nat → Int → Int → Nat
  csumPartial : Nat → List Nat → Nat
  csumDone : Nat → Nat

/-- Modelled from the spec: `wireWordSize` is declared outside the sources at hand; the data
offset in words is multiplied by 4 to get bytes. -/
def wireWordSize : Nat := 4

/-- Big-endian value of a byte string. -/
def decodeBE (bs : List Nat) : Nat := bs.foldl (fun acc b => acc * 256 + b) 0

/-- Modelled from the spec: `decode1ByteUint` is declared outside the sources at hand; it is
the value of the bytes it is given, in network byte order. -/
def decode1ByteUint (w : List Nat) : Nat := decodeBE w

/-- Modelled from the spec: `decode2ByteUint` is declared outside the sources at hand; it is
the value of the bytes it is given, in network byte order. -/
def decode2ByteUint (w : List Nat) : Nat := decodeBE w

/-- Modelled from the spec: `decode3ByteUint` is declared outside the sources at hand; it is
the value of the bytes it is given, in network byte order. -/
def decode3ByteUint (w : List Nat) : Nat := decodeBE w

/-- Modelled from the spec: `decode6ByteUint` is declared outside the sources at hand; it is
the value of the bytes it is given, in network byte order. -/
def decode6ByteUint (w : List Nat) : Nat := decodeBE w

/-- The Go slice expression `buf[lo:hi]`; it panics when the bounds are out of range (the
capacity of the buffer is taken to be its length). -/
def slice (buf : List Nat) (lo hi : Nat) : Option (List Nat) :=
  if lo ≤ hi ∧ hi ≤ buf.length then some ((buf.drop lo).take (hi - lo)) else none

/-- Modelled from the spec: `calcChecksumAppCoverage` is declared outside the sources at hand;
`CsCov = 0` covers all application data, otherwise `CsCov * 4` bytes are covered, and the
result is the Numeric error if `CsCov * 4` exceeds the application data length. -/
def calcChecksumAppCoverage (CsCov : Nat) (dataLen : Int) : Except Err Int :=
  if CsCov = 0 then .ok dataLen
  else if (CsCov : Int) * 4 > dataLen then .error Err.ErrNumeric
  else .ok ((CsCov : Int) * 4)

/-- The data offset in bytes, as computed from byte 4 of the buffer. -/
def dataOffsetOf (buf : List Nat) : Nat :=
  decode1ByteUint ((buf.drop 4).take 1) * wireWordSize

/-- The checksum computation of `ReadGenericHeader` (from `calcChecksumAppCoverage` to
`csumDone`) for the header `gh` built so far: the folded checksum, an error of
`calcChecksumAppCoverage`, or a panic of a slice expression. -/
def computeChecksum (cd : Codec) (gh : GenericHeader) (buf sourceIP destIP : List Nat)
    (protoNo : Int) (dataOffset : Nat) : Option (Except Err Nat) :=
  match calcChecksumAppCoverage gh.CsCov ((buf.length : Int) - (dataOffset : Int)) with
  | .error e => some (.error e)
  | .ok appcov =>
    if appcov < 0 then none
    else
      match slice buf 0 dataOffset, slice buf dataOffset (dataOffset + appcov.toNat) with
      | some hdr, some cov =>
        some (.ok (cd.csumDone (cd.csumPartial
          (cd.csumAdd (cd.csumSum hdr) (cd.csumPseudoIP sourceIP destIP protoNo buf.length))
          cov)))
      | _, _ => none

/-- The sequence number of `ReadGenericHeader`, read at `k = 9`: the number and the new
`k`. -/
def readSeqNo (buf : List Nat) (X : Bool) : Option (Except Err (Nat × Nat)) :=
  if X = false then
    (slice buf 9 12).map (fun w => .ok (decode3ByteUint w, 12))
  else
    match slice buf 9 10 with
    | none => none
    | some p =>
      if decode1ByteUint p ≠ 0 then some (.error Err.ErrNumeric)
      else (slice buf 10 16).map (fun w => .ok (decode6ByteUint w, 16))

/-- The acknowledgement number subheader of `ReadGenericHeader`, read at `k`: the number (0
when there is none) and the new `k`. -/
def readAckNo (cd : Codec) (buf : List Nat) (pktType : Int) (X : Bool) (k : Nat) :
    Option (Except Err (Nat × Nat)) :=
  if cd.calcAckNoSubheaderSize pktType X = 0 then some (.ok (0, k))
  else if cd.calcAckNoSubheaderSize pktType X = 4 then
    match slice buf k (k + 1) with
    | none => none
    | some p =>
      if decode1ByteUint p ≠ 0 then some (.error Err.ErrNumeric)
      else (slice buf (k + 1) (k + 4)).map (fun w => .ok (decode3ByteUint w, k + 4))
  else if cd.calcAckNoSubheaderSize pktType X = 8 then
    match slice buf k (k + 2) with
    | none => none
    | some p =>
      if decode2ByteUint p ≠ 0 then some (.error Err.ErrNumeric)
      else (slice buf (k + 2) (k + 8)).map (fun w => .ok (decode6ByteUint w, k + 8))
  else none

/-- The code subheader of `ReadGenericHeader`, read at `k`: the service code, the reset
bytes and the new `k`; a slice out of range panics. -/
def readCode (cd : Codec) (buf : List Nat) (pktType : Int) (k : Nat) :
    Option (Nat × List Nat × Nat) :=
  if pktType = cd.Request ∨ pktType = cd.Response then
    (slice buf k (k + 4)).map (fun w => (decode6ByteUint w, [], k + 4))
  else if pktType = cd.Reset then
    (slice buf k (k + 4)).map (fun w => (0, w, k + 4))
  else some (0, [], k)

/-- `ReadGenericHeader` up to and including the code subheader: the header read so far, the
read position `k` and the data offset in bytes. The local `CsCov` read from the low nibble
of byte 5 is not used afterwards; the checksum coverage is computed from `gh.CsCov`, which
still has its zero value. -/
def readHeader (cd : Codec) (buf sourceIP destIP : List Nat) (protoNo : Int)
    (allowShortSeqNoFeature : Bool) : Option (Except Err (GenericHeader × Nat × Nat)) :=
  if buf.length < 12 then some (.error Err.ErrSize)
  else
    let gh : GenericHeader :=
      { GenericHeader.zero with
        SourcePort := decode2ByteUint ((buf.drop 0).take 2)
        DestPort := decode2ByteUint ((buf.drop 2).take 2)
        CCVal := buf.getD 5 0 >>> 4
        Type_ := (((buf.getD 8 0 >>> 1) &&& 15 : Nat) : Int)
        X := (buf.getD 8 0 &&& 1) == 1 }
    let dataOffset := dataOffsetOf buf
    let _CsCov : Nat := buf.getD 5 0 &&& 15
    if !cd.areTypeAndXCompatible gh.Type_ gh.X allowShortSeqNoFeature then
      some (.error Err.ErrSemantic)
    else if (dataOffset : Int) < cd.calcFixedHeaderSize gh.Type_ gh.X ∨
        dataOffset > buf.length then
      some (.error Err.ErrNumeric)
    else
      match computeChecksum cd gh buf sourceIP destIP protoNo dataOffset with
      | none => none
      | some (.error e) => some (.error e)
      | some (.ok csum) =>
        if csum ≠ 0 then some (.error Err.ErrChecksum)
        else
          match readSeqNo buf gh.X with
          | none => none
          | some (.error e) => some (.error e)
          | some (.ok (seqNo, k1)) =>
            match readAckNo cd buf gh.Type_ gh.X k1 with
            | none => none
            | some (.error e) => some (.error e)
            | some (.ok (ackNo, k2)) =>
              match readCode cd buf gh.Type_ k2 with
              | none => none
              | some (serviceCode, reset, k3) =>
                some (.ok ({ gh with SeqNo := seqNo, AckNo := ackNo,
                                     ServiceCode := serviceCode, Reset := reset },
                  k3, dataOffset))

/-- `ReadGenericHeader`: the header fields, then the options `buf[k:dataOffset]` are read
and sanitized (and dropped), then the application data is attached. -/
def ReadGenericHeader (cd : Codec) (buf sourceIP destIP : List Nat) (protoNo : Int)
    (allowShortSeqNoFeature : Bool) : Option (Except Err GenericHeader) :=
  match readHeader cd buf sourceIP destIP protoNo allowShortSeqNoFeature with
  | none => none
  | some (.error e) => some (.error e)
  | some (.ok (gh, k, dataOffset)) =>
    match slice buf k dataOffset with
    | none => none
    | some region =>
      match readOptions cd.catalog region with
      | .error e => some (.error e)
      | .ok opts =>
        match sanitizeOptions cd.catalog gh.Type_ opts with
        | .error e => some (.error e)
        | .ok _ => some (.ok { gh with Data := buf.drop dataOffset })

/-- Sum of the 16-bit big-endian words of a byte string, an odd last byte being the high
byte of a word. -/
def sum16 : List Nat → Nat
  | [] => 0
  | [b] => b * 256
  | b1 :: b2 :: rest => b1 * 256 + b2 + sum16 rest

/-- A concrete codec with the RFC 4340 packet type numbers and header sizes and the Internet
checksum (one's complement of the folded sum of 16-bit words); it is used to evaluate the
decoder on concrete packets. -/
def rfcCodec : Codec :=
  { catalog := rfcCatalog
    Request := 0
    Response := 1
    Data := 2
    Reset := 7
    areTypeAndXCompatible := fun t X allow =>
      X || (allow && (decide (t = 2) || decide (t = 3) || decide (t = 4)))
    calcFixedHeaderSize := fun t X =>
      (if X then 16 else 12) +
        (if t = 0 ∨ t = 2 then 0 else if X then 8 else 4) +
        (if t = 0 ∨ t = 1 ∨ t = 7 then 4 else 0)
    calcAckNoSubheaderSize := fun t X =>
      if t = 0 ∨ t = 2 then 0 else if X then 8 else 4
    csumSum := sum16
    csumAdd := fun a b => a + b
    csumPseudoIP := fun src dst proto len => sum16 src + sum16 dst + proto.toNat + len.toNat
    csumPartial := fun c bs => c + sum16 bs
    csumDone := fun c =>
      65535 - ((c % 65536 + c / 65536) % 65536 + (c % 65536 + c / 65536) / 65536) }

/-- The checksum as the specification words it (steps 5 and 6 of the decoding procedure):
the application-data coverage is computed from the `CsCov` field on the wire, the low nibble
of byte 5, and the checksum is taken over `buf[0:dataOffset]`, the pseudo-header and the
covered prefix of the application data. -/
def coveredChecksumSpec (cd : Codec) (buf sourceIP destIP : List Nat) (protoNo : Int) :
    Option (Except Err Nat) :=
  computeChecksum cd { GenericHeader.zero with CsCov := buf.getD 5 0 &&& 15 } buf sourceIP
    destIP protoNo (dataOffsetOf buf)

/-! ## Arithmetic lemmas -/

theorem wrap64_of_range (z : Int) (h1 : -9223372036854775808 ≤ z)
    (h2 : z < 9223372036854775808) : wrap64 z = z := by
  unfold wrap64
  norm_num
  omega

theorem wrap64_le_of_nonneg (z : Int) (h : 0 ≤ z) : wrap64 z ≤ z := by
  unfold wrap64
  norm_num
  omega

theorem toU32_of_range (z : Int) (h1 : 0 ≤ z) (h2 : z < 4294967296) :
    ((toU32 z : Nat) : Int) = z := by
  unfold toU32
  norm_num
  omega

/-! ## `readOptions` -/

theorem readOptions_eq_errAlign_iff (c : Catalog) (buf : List Nat) :
    readOptions c buf = .error Err.ErrAlign ↔ 4 ≤ buf.length := by
  unfold readOptions
  have h : buf.length >>> 2 = buf.length / 4 := by
    simp [Nat.shiftRight_eq_div_pow]
  rw [h]
  by_cases h4 : 4 ≤ buf.length
  · have : buf.length / 4 ≠ 0 := by omega
    simp [this, h4]
  · have : buf.length / 4 = 0 := by omega
    simp [this, h4]

/-- C1 (evaluation at the failing inputs): buffers of length 1, 2 and 3, whose length is not
a multiple of four, are not answered with `ErrAlign`, while buffers of length 4 and 8, whose
length is a multiple of four, are answered with `ErrAlign`. -/
theorem readOptions_align_failing_inputs (c : Catalog) :
    readOptions c [0] ≠ .error Err.ErrAlign ∧
    readOptions c [0, 0] ≠ .error Err.ErrAlign ∧
    readOptions c [0, 0, 0] ≠ .error Err.ErrAlign ∧
    readOptions c [0, 0, 0, 0] = .error Err.ErrAlign ∧
    readOptions c [0, 0, 0, 0, 0, 0, 0, 0] = .error Err.ErrAlign := by
  refine ⟨?_, ?_, ?_, ?_, ?_⟩ <;> simp [readOptions_eq_errAlign_iff]

/-! ## `initRate` and the first feedback -/

theorem initRate_1460 : initRate 1460 100000000 = some 43800 := by
  decide

/-- C2 (counterexample): after `Init(0, 1460)` the call
`OnRead(1e9, 1460, 1000000, 100e6, 0, false)` does not return 58400. -/
theorem OnRead_first_feedback_not_58400 :
    ((rateCalculator.zero.Init 0 1460).OnRead [] 1000000000 1460 1000000 100000000 0
      false false false).map Prod.snd ≠ some 58400 := by
  decide

/-- C2 (amended): after `Init(0, 1460)` the call `OnRead(1e9, 1460, 1000000, 100e6, 0, false)`
returns `x = 43800` bytes/s, the value of `initRate(1460, 100e6)`, stores it, and leaves
`tld = 1e9`; the rest of the state is as `Init` left it. -/
theorem OnRead_first_feedback_scenario (qTable : List Int) (t : rateCalculator)
    (newLoss dataLimited lossIncrease : Bool) :
    initRate 1460 100000000 = some 43800 ∧
    (t.Init 0 1460).OnRead qTable 1000000000 1460 1000000 100000000 0
      newLoss dataLimited lossIncrease =
      some ({ t.Init 0 1460 with x := 43800, tld := 1000000000 }, 43800) := by
  refine ⟨initRate_1460, ?_⟩
  simp [rateCalculator.OnRead, rateCalculator.Init, rateCalculator.onFirstRead, initRate_1460]

theorem minu32_eq_min (a b : Nat) : minu32 a b = min a b := by
  unfold minu32
  split <;> omega

theorem maxu32_eq_max (a b : Nat) : maxu32 a b = max a b := by
  unfold maxu32
  split <;> omega

theorem max64_eq_max (a b : Int) : max64 a b = max a b := by
  unfold max64
  split <;> omega

theorem u32_of_lt (n : Nat) (h : n < 4294967296) : u32 n = n := by
  unfold u32
  norm_num
  omega

/-- C3 (counterexample): for `ss = 2^22` and `rtt = 1` the rate returned is 0, below one
byte per second, while the value over the integers is `8388608 * 10^9`. -/
theorem initRate_wraps_to_zero :
    initRate 4194304 1 = some 0 ∧ initRateSpec 4194304 1 = 8388608000000000 := by
  decide

/-- C3 (amended): for every segment size `ss > 0` with `4*ss < 2^32` and every `rtt > 0` for
which `max(1, floor(1e9 * W / rtt))`, `W = min(4*ss, max(2*ss, 4380))`, is below `2^32`,
`initRate(ss, rtt)` returns exactly that value, and it is at least 1. -/
theorem initRate_eq_spec_of_fits (ss : Nat) (rtt : Int) (hss : 0 < ss)
    (hss4 : 4 * ss < 4294967296) (hrtt : 0 < rtt)
    (hfit : initRateSpec ss rtt < 4294967296) :
    ∃ r : Nat, initRate ss rtt = some r ∧ (r : Int) = initRateSpec ss rtt ∧ 1 ≤ r := by
  have hW : minu32 (u32 (4 * ss)) (maxu32 (u32 (2 * ss)) X_MAX_INIT_WIN)
      = min (4 * ss) (max (2 * ss) 4380) := by
    rw [u32_of_lt _ hss4, u32_of_lt _ (by omega), minu32_eq_min, maxu32_eq_max]
    rfl
  generalize hWdef : min (4 * ss) (max (2 * ss) 4380) = W at hW
  have hWlt : W < 4294967296 := by omega
  have hprod : wrap64 (1000000000 * (W : Int)) = 1000000000 * (W : Int) :=
    wrap64_of_range _ (by omega) (by omega)
  have hq0 : 0 ≤ (1000000000 * (W : Int)) / rtt :=
    Int.ediv_nonneg (by omega) (le_of_lt hrtt)
  have hqle : (1000000000 * (W : Int)) / rtt ≤ 1000000000 * (W : Int) :=
    Int.ediv_le_self _ (by omega)
  have htdiv : Int.tdiv (1000000000 * (W : Int)) rtt = (1000000000 * (W : Int)) / rtt :=
    Int.tdiv_eq_ediv (by omega) (le_of_lt hrtt)
  have hspec : initRateSpec ss rtt = max 1 ((1000000000 * (W : Int)) / rtt) := by
    unfold initRateSpec
    rw [hWdef]
  have hret : initRate ss rtt = some (toU32 (max 1 ((1000000000 * (W : Int)) / rtt))) := by
    unfold initRate
    have hne : ¬ (ss ≤ 0 ∨ rtt ≤ 0) := by omega
    have hrne : rtt ≠ 0 := by omega
    simp only [hne, if_false, hW, hprod, div64, hrne, htdiv, Option.map_some',
      max64_eq_max]
    rw [wrap64_of_range _ (by omega) (by omega), max_comm]
  refine ⟨_, hret, ?_, ?_⟩
  · rw [hspec]
    exact toU32_of_range _ (by omega) (by rw [← hspec]; exact hfit)
  · have h := toU32_of_range (max 1 ((1000000000 * (W : Int)) / rtt)) (by omega)
      (by rw [← hspec]; exact hfit)
    omega

/-- C3 (witness): `ss = 1460`, `rtt = 100e6`. -/
theorem initRate_eq_spec_of_fits_witness :
    ∃ r : Nat, initRate 1460 100000000 = some r ∧
      (r : Int) = initRateSpec 1460 100000000 ∧ 1 ≤ r :=
  initRate_eq_spec_of_fits 1460 100000000 (by decide) (by decide) (by decide) (by decide)

/-! ## `OnRead` after a loss rate is known -/

/-- C4 (counterexample): on the first feedback (`tld = 0`) with `lossRateInv = 1`,
`ss = 1460` and `rtt = 1e13` the rate returned is `initRate(1460, 1e13) = 1`, below
`1e9*1460/64e9 = 22`. -/
theorem OnRead_loss_bounds_fail :
    (rateCalculator.zero.OnRead [1] 5 1460 7 10000000000000 1 false false false).map
        Prod.snd = some 1 ∧
      initRate 1460 10000000000000 = some 1 ∧
      (1 : Nat) < 1000000000 * 1460 / 64000000000 := by
  decide

/-- C4 (amended): for every state and every `OnRead` call with `lossRateInv > 0` that
returns, the returned `x` is the stored one; on the first feedback (`tld <= 0`) it is
`initRate(ss, rtt)`, with no floor applied; otherwise (`tld > 0`) it is
`max(min(x_eq, recv_limit), F)` with `x_eq` the result of `thruEq`, `recv_limit` the value
after the call and `F` the value of the floor expression of the source, so that
`F <= x <= max(recv_limit, F)`. Hence, whenever `initRate(ss, rtt) >= F`, every such call,
the first feedback included, has `x >= F` and `x <= max(recv_limit, initRate(ss, rtt))`.
With `tld > 0` the call returns exactly when `thruEq` returns and, on the path that is not
data-limited, `Update` returns. No step of the proof uses the value of `F`. -/
theorem OnRead_loss_bounds (qTable : List Int) (t : rateCalculator) (now : Int) (ss : Nat)
    (x_recv : Nat) (rtt : Int) (lossRateInv : Nat) (newLoss dataLimited lossIncrease : Bool)
    (hl : 0 < lossRateInv) :
    (∀ r, t.OnRead qTable now ss x_recv rtt lossRateInv newLoss dataLimited lossIncrease
        = some r →
      r.1.x = r.2 ∧
      (t.tld ≤ 0 → initRate ss rtt = some r.2) ∧
      (0 < t.tld →
        (∃ x_eq, thruEq qTable ss rtt lossRateInv = some x_eq ∧
          r.2 = max (min x_eq r.1.recv_limit) (backoffFloor ss)) ∧
        backoffFloor ss ≤ r.2 ∧ r.2 ≤ max r.1.recv_limit (backoffFloor ss)) ∧
      (∀ r0, initRate ss rtt = some r0 → backoffFloor ss ≤ r0 →
        backoffFloor ss ≤ r.2 ∧ r.2 ≤ max r.1.recv_limit r0)) ∧
    (0 < t.tld →
      ((t.OnRead qTable now ss x_recv rtt lossRateInv newLoss dataLimited
          lossIncrease).isSome ↔
        ((thruEq qTable ss rtt lossRateInv).isSome ∧
          (dataLimited = true ∨ (t.xRecvSet.Update now x_recv rtt).isSome)))) := by
  constructor
  · intro r hr
    unfold rateCalculator.OnRead at hr
    by_cases htld : t.tld ≤ 0
    · simp only [htld, if_true, rateCalculator.onFirstRead] at hr
      cases hi : initRate ss rtt with
      | none => simp [hi] at hr
      | some v =>
        simp only [hi, Option.map_some', Option.some.injEq] at hr
        subst hr
        refine ⟨rfl, fun _ => rfl, fun h => absurd htld (by omega), ?_⟩
        intro r0 hr0 hfl
        simp only [Option.some.injEq] at hr0
        subst hr0
        exact ⟨hfl, le_max_right _ _⟩
    · simp only [htld, if_false, hl, if_true] at hr
      obtain ⟨t1, _, hr⟩ := Option.bind_eq_some.mp hr
      obtain ⟨x_eq, hx, hr⟩ := Option.map_eq_some'.mp hr
      subst hr
      generalize backoffFloor ss = F
      refine ⟨rfl, fun h => absurd h htld, fun _ => ⟨⟨x_eq, hx, ?_⟩, ?_, ?_⟩,
        fun r0 _ hfl => ?_⟩
      · simp only [maxu32_eq_max, minu32_eq_min]
      · simp only [maxu32_eq_max, minu32_eq_min]
        omega
      · simp only [maxu32_eq_max, minu32_eq_min]
        omega
      · simp only [maxu32_eq_max, minu32_eq_min]
        omega
  · intro htld
    have htld2 : ¬ t.tld ≤ 0 := by omega
    unfold rateCalculator.OnRead
    simp only [htld2, if_false, hl, if_true]
    cases hq : thruEq qTable ss rtt lossRateInv <;>
      cases dataLimited <;> cases lossIncrease <;>
      cases hu : t.xRecvSet.Update now x_recv rtt <;> simp

/-- C4 (witness): the state with `tld = 1` and an empty history, `OnRead(5, 4, 1, 1e12, 1)`
on the path that is not data-limited: `x_eq = 4`, `recv_limit = 2`, `1e9*4` is below `2^32`
and the floor is 0, so the call returns 2. -/
theorem OnRead_loss_bounds_witness :
    0 < 1 ∧
    (rateCalculator.mk 1 1 0 rateCalculator.zero.xRecvSet).OnRead [1] 5 4 1
        1000000000000 1 false false false =
      some (⟨2, 1, 2, ⟨[⟨1, 5⟩, xRecvEntry.zero, xRecvEntry.zero]⟩⟩, 2) ∧
    (∃ x_eq, thruEq [1] 4 1000000000000 1 = some x_eq ∧
      2 = max (min x_eq 2) (backoffFloor 4)) ∧
    backoffFloor 4 ≤ 2 ∧ 2 ≤ max 2 (backoffFloor 4) :=
  ⟨by decide, by decide,
    ((OnRead_loss_bounds [1] (rateCalculator.mk 1 1 0 rateCalculator.zero.xRecvSet) 5 4 1
      1000000000000 1 false false false (by decide)).1
      (⟨2, 1, 2, ⟨[⟨1, 5⟩, xRecvEntry.zero, xRecvEntry.zero]⟩⟩, 2) (by decide)).2.2.1
      (by decide)⟩

/-! ## `xRecvSet` -/

/-- C5 (evaluation at the failing input): a set whose only occupied slot has rate 0 yields
`X_RECV_MAX = 2^31 - 1`, not 0. -/
theorem Max_of_zero_rate_slot :
    (xRecvSet.mk [⟨0, 5⟩, xRecvEntry.zero, xRecvEntry.zero]).Max = 2147483647 ∧
    ((xRecvSet.mk [⟨0, 5⟩, xRecvEntry.zero, xRecvEntry.zero]).set.filter
      xRecvEntry.occupied).map xRecvEntry.Rate = [0] := by
  decide

theorem evict_eq_math (now rtt : Int) (e : xRecvEntry) (h0 : 0 ≤ now)
    (h1 : now < 9223372036854775808) (hr1 : -4611686018427387904 ≤ rtt)
    (hr2 : rtt < 4611686018427387904) (hT : e.Time < 9223372036854775808) :
    evict now rtt e = evictRule now rtt e := by
  unfold evict evictRule
  by_cases hpos : 0 < e.Time
  · rw [wrap64_of_range (now - e.Time) (by omega) (by omega),
      wrap64_of_range (2 * rtt) (by omega) (by omega)]
  · simp [hpos]

theorem evict_fresh (now rtt : Int) (e : xRecvEntry) (h0 : 0 < now)
    (h1 : now < 9223372036854775808) (hr : 0 ≤ rtt) (hT : 0 < e.Time → e.Time ≤ now) :
    (evict now rtt e).Time ≤ now ∧
      (0 < (evict now rtt e).Time → now - (evict now rtt e).Time ≤ 2 * rtt) := by
  unfold evict
  split
  · simp [xRecvEntry.zero]
    omega
  · rename_i hne
    by_cases hpos : 0 < e.Time
    · have hle := hT hpos
      have hw := wrap64_of_range (now - e.Time) (by omega) (by omega)
      have hw2 := wrap64_le_of_nonneg (2 * rtt) (by omega)
      rw [hw] at hne
      constructor
      · exact hle
      · intro _
        by_contra hcon
        exact hne ⟨hpos, by omega⟩
    · exact ⟨by omega, fun h => absurd h hpos⟩

/-- C6 (counterexample): with three occupied slots of equal time 5, `Update(10, 9, 100)`
writes slot 2, the highest index among the ties, where the specification's wording writes
slot 0. -/
theorem Update_tie_highest_index :
    (xRecvSet.mk [⟨1, 5⟩, ⟨2, 5⟩, ⟨3, 5⟩]).Update 10 9 100 =
      some ⟨[⟨1, 5⟩, ⟨2, 5⟩, ⟨9, 10⟩]⟩ ∧
    (xRecvSet.mk [⟨1, 5⟩, ⟨2, 5⟩, ⟨3, 5⟩]).UpdateSpec 10 9 100 =
      ⟨[⟨9, 10⟩, ⟨2, 5⟩, ⟨3, 5⟩]⟩ := by
  decide

theorem findSlot_three (a b c : xRecvEntry) (now : Int)
    (h : a.Time ≤ now ∨ b.Time ≤ now ∨ c.Time ≤ now) :
    ∃ j : Nat, j < 3 ∧
      ((([a, b, c].getD j xRecvEntry.zero).Time ≤ 0 ∧ ∀ e ∈ [a, b, c].take j, 0 < e.Time) ∨
        ((∀ e ∈ [a, b, c], 0 < e.Time) ∧
          ([a, b, c].getD j xRecvEntry.zero).Time ≤ now ∧
          (∀ e ∈ [a, b, c], ([a, b, c].getD j xRecvEntry.zero).Time ≤ e.Time) ∧
          (∀ e ∈ [a, b, c].drop (j + 1),
            ([a, b, c].getD j xRecvEntry.zero).Time < e.Time))) ∧
      findSlot [a, b, c] 0 (-1) now = (j : Int) := by
  simp only [findSlot]
  split_ifs with h1 h2 h3 h4 h5 h6 h7 h8 h9 h10 h11 h12 h13 h14
  all_goals first
    | (exfalso; omega)
    | (refine ⟨0, ?_, ?_, ?_⟩
       · omega
       · simp
         omega
       · norm_num)
    | (refine ⟨1, ?_, ?_, ?_⟩
       · omega
       · simp
         omega
       · norm_num)
    | (refine ⟨2, ?_, ?_, ?_⟩
       · omega
       · simp
         omega
       · norm_num)

theorem findSlot_three_none (a b c : xRecvEntry) (now : Int) (h0 : 0 ≤ now)
    (h : now < a.Time ∧ now < b.Time ∧ now < c.Time) :
    findSlot [a, b, c] 0 (-1) now = -1 := by
  simp only [findSlot]
  split_ifs <;> first | rfl | (exfalso; omega)

theorem Update_of_slot (s : List xRecvEntry) (t : xRecvSet) (now rtt : Int) (x : Nat)
    (j : Nat) (hs : t.set.map (evict now rtt) = s) (hj : j < s.length)
    (hf : findSlot s 0 (-1) now = (j : Int)) :
    t.Update now x rtt = some ⟨s.set j ⟨x, now⟩⟩ := by
  unfold xRecvSet.Update
  simp only [hs, hf]
  have : (0 : Int) ≤ (j : Int) ∧ (j : Int) < (s.length : Int) := by omega
  simp [this]

/-- C6 (amended): for every `xRecvSet` of three slots, `now >= 0` and `rtt` with `2*rtt`
inside the `int64` range, `Update(now, x_recv, rtt)` first empties every slot with
`Time > 0` and `now - Time > 2*rtt`; if some slot then has `Time <= now` it writes
`{x_recv, now}` into the first slot with `Time <= 0` or, if there is none, into the slot with
the smallest `Time`, choosing the highest index among the slots that tie for the smallest
`Time`, and leaves all other slots unchanged; if every slot then has `Time > now` the call
panics. -/
theorem Update_slot_choice (t : xRecvSet) (now : Int) (x_recv : Nat) (rtt : Int)
    (hlen : t.set.length = X_RECV_SET_SIZE) (h0 : 0 ≤ now)
    (h1 : now < 9223372036854775808) (hr1 : -4611686018427387904 ≤ rtt)
    (hr2 : rtt < 4611686018427387904)
    (hT : ∀ e ∈ t.set, e.Time < 9223372036854775808) :
    ((∃ e ∈ t.set.map (evictRule now rtt), e.Time ≤ now) →
      ∃ j : Nat, j < 3 ∧
        ((((t.set.map (evictRule now rtt)).getD j xRecvEntry.zero).Time ≤ 0 ∧
            ∀ e ∈ (t.set.map (evictRule now rtt)).take j, 0 < e.Time) ∨
          ((∀ e ∈ t.set.map (evictRule now rtt), 0 < e.Time) ∧
            ((t.set.map (evictRule now rtt)).getD j xRecvEntry.zero).Time ≤ now ∧
            (∀ e ∈ t.set.map (evictRule now rtt),
              ((t.set.map (evictRule now rtt)).getD j xRecvEntry.zero).Time ≤ e.Time) ∧
            (∀ e ∈ (t.set.map (evictRule now rtt)).drop (j + 1),
              ((t.set.map (evictRule now rtt)).getD j xRecvEntry.zero).Time < e.Time))) ∧
        t.Update now x_recv rtt =
          some ⟨(t.set.map (evictRule now rtt)).set j ⟨x_recv, now⟩⟩) ∧
    ((∀ e ∈ t.set.map (evictRule now rtt), now < e.Time) →
      t.Update now x_recv rtt = none) := by
  obtain ⟨l⟩ := t
  simp only [X_RECV_SET_SIZE] at hlen
  match l, hlen with
  | [a, b, c], _ =>
    have hmap : [a, b, c].map (evict now rtt) = [a, b, c].map (evictRule now rtt) := by
      simp only [List.map]
      rw [evict_eq_math now rtt a h0 h1 hr1 hr2 (hT a (by simp)),
        evict_eq_math now rtt b h0 h1 hr1 hr2 (hT b (by simp)),
        evict_eq_math now rtt c h0 h1 hr1 hr2 (hT c (by simp))]
    simp only [List.map] at hmap ⊢
    generalize evictRule now rtt a = a2 at hmap ⊢
    generalize evictRule now rtt b = b2 at hmap ⊢
    generalize evictRule now rtt c = c2 at hmap ⊢
    constructor
    · intro hex
      have h3 : a2.Time ≤ now ∨ b2.Time ≤ now ∨ c2.Time ≤ now := by
        simpa using hex
      obtain ⟨j, hj, hc, hf⟩ := findSlot_three a2 b2 c2 now h3
      exact ⟨j, hj, hc, Update_of_slot [a2, b2, c2] ⟨[a, b, c]⟩ now rtt x_recv j hmap
        (by simpa using hj) hf⟩
    · intro hall
      have h3 : now < a2.Time ∧ now < b2.Time ∧ now < c2.Time := by
        simpa using hall
      have hf := findSlot_three_none a2 b2 c2 now h0 h3
      unfold xRecvSet.Update
      simp only [show List.map (evict now rtt) (xRecvSet.mk [a, b, c]).set = [a2, b2, c2]
        from hmap, hf]
      simp

/-- C6 (witness): three occupied slots with times 5, 5, 7 at `now = 10`, `rtt = 100`. -/
theorem Update_slot_choice_witness :
    (xRecvSet.mk [⟨1, 5⟩, ⟨2, 5⟩, ⟨3, 7⟩]).set.length = X_RECV_SET_SIZE ∧
    ∃ j : Nat, j < 3 ∧
      (xRecvSet.mk [⟨1, 5⟩, ⟨2, 5⟩, ⟨3, 7⟩]).Update 10 9 100 =
        some ⟨((xRecvSet.mk [⟨1, 5⟩, ⟨2, 5⟩, ⟨3, 7⟩]).set.map (evictRule 10 100)).set j
          ⟨9, 10⟩⟩ := by
  refine ⟨by decide, ?_⟩
  obtain ⟨j, hj, _, hu⟩ :=
    (Update_slot_choice (xRecvSet.mk [⟨1, 5⟩, ⟨2, 5⟩, ⟨3, 7⟩]) 10 9 100 (by decide)
      (by decide) (by decide) (by decide) (by decide) (by decide)).1
      ⟨⟨1, 5⟩, by decide, by decide⟩
  exact ⟨j, hj, hu⟩

/-- C7: for every `xRecvSet` of three slots whose occupied timestamps are all `<= now`,
every `now > 0` and `rtt >= 0`, `Update(now, x_recv, rtt)` returns, and afterwards every
occupied slot has `now - Time <= 2*rtt` and some slot holds exactly `{x_recv, now}`. From
the empty set, `Update(1000,100,100); Update(1100,200,100); Update(1400,300,100)` leaves no
entry with `Time = 1000` and `Max() = 300`. -/
theorem Update_keeps_recent (t : xRecvSet) (now : Int) (x_recv : Nat) (rtt : Int)
    (hlen : t.set.length = X_RECV_SET_SIZE)
    (hts : ∀ e ∈ t.set, 0 < e.Time → e.Time ≤ now) (hnow : 0 < now)
    (hnow2 : now < 9223372036854775808) (hrtt : 0 ≤ rtt) :
    (∃ s2 : xRecvSet, t.Update now x_recv rtt = some s2 ∧
      s2.set.length = X_RECV_SET_SIZE ∧
      (∀ e ∈ s2.set, 0 < e.Time → now - e.Time ≤ 2 * rtt) ∧
      (⟨x_recv, now⟩ : xRecvEntry) ∈ s2.set) ∧
    (∃ s3 : xRecvSet,
      (((xRecvSet.mk [xRecvEntry.zero, xRecvEntry.zero, xRecvEntry.zero]).Update 1000 100
          100).bind (fun s => s.Update 1100 200 100)).bind
        (fun s => s.Update 1400 300 100) = some s3 ∧
      (∀ e ∈ s3.set, e.Time ≠ 1000) ∧ s3.Max = 300) := by
  constructor
  · obtain ⟨l⟩ := t
    simp only [X_RECV_SET_SIZE] at hlen
    match l, hlen with
    | [a, b, c], _ =>
      have ha := evict_fresh now rtt a hnow hnow2 hrtt (hts a (by simp))
      have hb := evict_fresh now rtt b hnow hnow2 hrtt (hts b (by simp))
      have hc := evict_fresh now rtt c hnow hnow2 hrtt (hts c (by simp))
      have hmap : (xRecvSet.mk [a, b, c]).set.map (evict now rtt)
          = [evict now rtt a, evict now rtt b, evict now rtt c] := rfl
      generalize evict now rtt a = a2 at ha hmap
      generalize evict now rtt b = b2 at hb hmap
      generalize evict now rtt c = c2 at hc hmap
      obtain ⟨j, hj, -, hf⟩ := findSlot_three a2 b2 c2 now (Or.inl ha.1)
      refine ⟨_, Update_of_slot [a2, b2, c2] ⟨[a, b, c]⟩ now rtt x_recv j hmap
        (by simpa using hj) hf, ?_, ?_, ?_⟩
      · simp [X_RECV_SET_SIZE]
      · have ha2 := ha.2
        have hb2 := hb.2
        have hc2 := hc.2
        interval_cases j <;> simp <;> omega
      · interval_cases j <;> simp
  · exact ⟨⟨[⟨300, 1400⟩, xRecvEntry.zero, xRecvEntry.zero]⟩, by decide, by decide, by decide⟩

/-- C7 (witness): the second step of the scenario. -/
theorem Update_keeps_recent_witness :
    (0 : Int) < 1100 ∧
    ∃ s2 : xRecvSet,
      (xRecvSet.mk [⟨100, 1000⟩, xRecvEntry.zero, xRecvEntry.zero]).Update 1100 200 100
        = some s2 ∧
      (∀ e ∈ s2.set, 0 < e.Time → 1100 - e.Time ≤ 2 * 100) ∧
      (⟨200, 1100⟩ : xRecvEntry) ∈ s2.set := by
  refine ⟨by decide, ?_⟩
  obtain ⟨s2, h1, _, h3, h4⟩ :=
    (Update_keeps_recent (xRecvSet.mk [⟨100, 1000⟩, xRecvEntry.zero, xRecvEntry.zero]) 1100
      200 100 (by decide) (by decide) (by decide) (by decide) (by decide)).1
  exact ⟨s2, h1, h3, h4⟩

/-- C8 (counterexample): `Maximize(0, 5)` on the empty set leaves slot 0 as `{5, 0}`, whose
`Time` is not positive, so no slot is occupied afterwards. -/
theorem Maximize_now_zero_none_occupied :
    ((xRecvSet.mk [xRecvEntry.zero, xRecvEntry.zero, xRecvEntry.zero]).Maximize 0 5).set =
      [⟨5, 0⟩, xRecvEntry.zero, xRecvEntry.zero] ∧
    (((xRecvSet.mk [xRecvEntry.zero, xRecvEntry.zero, xRecvEntry.zero]).Maximize 0 5).set.filter
      xRecvEntry.occupied).length = 0 := by
  decide

/-- C8 (amended): for every `xRecvSet` of three slots, `now` and `x_recv`, after
`Maximize(now, x_recv)` slot 0 holds `{M, now}` where `M` is the maximum of `x_recv` and the
`Rate` of every slot that was occupied (`Time > 0`) before the call, and slots 1 and 2 are
empty (`Rate 0`, `Time 0`); hence, when `now > 0`, exactly one slot is occupied after
`Maximize`. -/
theorem Maximize_result (t : xRecvSet) (now : Int) (x_recv : Nat)
    (hlen : t.set.length = X_RECV_SET_SIZE) :
    ∃ M : Nat,
      (t.Maximize now x_recv).set = [⟨M, now⟩, xRecvEntry.zero, xRecvEntry.zero] ∧
      x_recv ≤ M ∧
      (∀ e ∈ t.set, 0 < e.Time → e.Rate ≤ M) ∧
      (M = x_recv ∨ ∃ e ∈ t.set, 0 < e.Time ∧ M = e.Rate) ∧
      (0 < now → ((t.Maximize now x_recv).set.filter xRecvEntry.occupied).length = 1) := by
  obtain ⟨l⟩ := t
  simp only [X_RECV_SET_SIZE] at hlen
  match l, hlen with
  | [a, b, c], _ =>
    refine ⟨maximizeStep (maximizeStep (maximizeStep x_recv a) b) c, ?_, ?_, ?_, ?_, ?_⟩
    · simp [xRecvSet.Maximize]
    · simp only [maximizeStep, maxu32_eq_max]
      split_ifs <;> omega
    · simp only [maximizeStep, maxu32_eq_max]
      simp
      split_ifs <;> omega
    · simp only [maximizeStep, maxu32_eq_max]
      simp
      split_ifs <;> omega
    · intro hn
      simp [xRecvSet.Maximize, xRecvEntry.occupied, xRecvEntry.zero, hn]

/-- C8 (witness): slots `{4, 7}`, empty, `{9, 3}` with `Maximize(10, 5)`. -/
theorem Maximize_result_witness :
    (xRecvSet.mk [⟨4, 7⟩, xRecvEntry.zero, ⟨9, 3⟩]).set.length = X_RECV_SET_SIZE ∧
    ∃ M : Nat,
      ((xRecvSet.mk [⟨4, 7⟩, xRecvEntry.zero, ⟨9, 3⟩]).Maximize 10 5).set =
        [⟨M, 10⟩, xRecvEntry.zero, xRecvEntry.zero] ∧ 5 ≤ M := by
  refine ⟨by decide, ?_⟩
  obtain ⟨M, h1, h2, _⟩ :=
    Maximize_result (xRecvSet.mk [⟨4, 7⟩, xRecvEntry.zero, ⟨9, 3⟩]) 10 5 (by decide)
  exact ⟨M, h1, h2⟩

/-! ## `sanitizeOptions` -/

theorem sanitizeLoop_cons_invalid (c : Catalog) (pktType : Int) (o : WireOption)
    (os : List WireOption) (nim : Bool)
    (hv : c.isOptionValidForType o.Type_ pktType = false) :
    sanitizeLoop c pktType (o :: os) nim =
      if nim then .error Err.ErrOption else sanitizeLoop c pktType os false := by
  rw [sanitizeLoop, if_pos (by simp [hv])]

theorem sanitizeLoop_cons_marker (c : Catalog) (pktType : Int) (o : WireOption)
    (os : List WireOption) (nim : Bool)
    (hv : c.isOptionValidForType o.Type_ pktType = true)
    (hm : o.Type_ = c.OptionMandatory) :
    sanitizeLoop c pktType (o :: os) nim =
      if nim then .error Err.ErrOption else sanitizeLoop c pktType os true := by
  rw [sanitizeLoop, if_neg (by simp [hv]), if_pos hm]

theorem sanitizeLoop_cons_padding (c : Catalog) (pktType : Int) (o : WireOption)
    (os : List WireOption) (nim : Bool)
    (hv : c.isOptionValidForType o.Type_ pktType = true)
    (hm : o.Type_ ≠ c.OptionMandatory) (hp : o.Type_ = c.OptionPadding) :
    sanitizeLoop c pktType (o :: os) nim = sanitizeLoop c pktType os false := by
  rw [sanitizeLoop, if_neg (by simp [hv]), if_neg hm, if_pos hp]

theorem sanitizeLoop_cons_emit (c : Catalog) (pktType : Int) (o : WireOption)
    (os : List WireOption) (nim : Bool)
    (hv : c.isOptionValidForType o.Type_ pktType = true)
    (hm : o.Type_ ≠ c.OptionMandatory) (hp : o.Type_ ≠ c.OptionPadding) :
    sanitizeLoop c pktType (o :: os) nim =
      (sanitizeLoop c pktType os false).map
        (fun r => (if nim then { o with Mandatory := true } else o) :: r) := by
  rw [sanitizeLoop, if_neg (by simp [hv]), if_neg hm, if_neg hp]

theorem sanitizeLoop_emits (c : Catalog) (pktType : Int) :
    ∀ (opts : List WireOption) (nim : Bool) (out : List WireOption),
      sanitizeLoop c pktType opts nim = .ok out →
      (∀ o ∈ out, o.Type_ ≠ c.OptionPadding ∧ o.Type_ ≠ c.OptionMandatory ∧
          c.isOptionValidForType o.Type_ pktType = true) ∧
        (out.map optKey).Sublist (opts.map optKey) := by
  intro opts
  induction opts with
  | nil =>
    intro nim out h
    cases nim <;> simp [sanitizeLoop] at h
    subst h
    simp
  | cons o os ih =>
    intro nim out h
    by_cases hv : c.isOptionValidForType o.Type_ pktType = true
    · by_cases hm : o.Type_ = c.OptionMandatory
      · rw [sanitizeLoop_cons_marker c pktType o os nim hv hm] at h
        cases nim
        · obtain ⟨h1, h2⟩ := ih true out h
          exact ⟨h1, h2.trans (List.sublist_cons_self _ _)⟩
        · simp at h
      · by_cases hp : o.Type_ = c.OptionPadding
        · rw [sanitizeLoop_cons_padding c pktType o os nim hv hm hp] at h
          obtain ⟨h1, h2⟩ := ih false out h
          exact ⟨h1, h2.trans (List.sublist_cons_self _ _)⟩
        · rw [sanitizeLoop_cons_emit c pktType o os nim hv hm hp] at h
          cases hr : sanitizeLoop c pktType os false with
          | error e => simp [hr, Except.map] at h
          | ok r =>
            simp only [hr, Except.map, Except.ok.injEq] at h
            obtain ⟨h1, h2⟩ := ih false r hr
            subst h
            constructor
            · intro o2 ho2
              rcases List.mem_cons.mp ho2 with heq | hmem
              · subst heq
                cases nim <;> exact ⟨hp, hm, hv⟩
              · exact h1 o2 hmem
            · have hk : optKey (if nim = true then { o with Mandatory := true } else o)
                  = optKey o := by
                cases nim <;> rfl
              simp only [List.map_cons, hk]
              exact h2.cons₂ _
    · have hv2 : c.isOptionValidForType o.Type_ pktType = false := by
        simpa using hv
      rw [sanitizeLoop_cons_invalid c pktType o os nim hv2] at h
      cases nim
      · obtain ⟨h1, h2⟩ := ih false out h
        exact ⟨h1, h2.trans (List.sublist_cons_self _ _)⟩
      · simp at h

theorem sanitizeLoop_stamps (c : Catalog) (pktType : Int) :
    ∀ (opts : List WireOption) (prev : Option WireOption) (out : List WireOption),
      sanitizeLoop c pktType opts (isMarker c pktType prev) = .ok out →
      out = ((prev :: opts.map some).zip opts).filterMap (stampSpec c pktType) := by
  intro opts
  induction opts with
  | nil =>
    intro prev out h
    cases hm : isMarker c pktType prev <;> simp [sanitizeLoop, hm] at h
    subst h
    simp
  | cons o os ih =>
    intro prev out h
    simp only [List.map_cons, List.zip_cons_cons, List.filterMap_cons]
    by_cases hv : c.isOptionValidForType o.Type_ pktType = true
    · by_cases hm : o.Type_ = c.OptionMandatory
      · have hmk : isMarker c pktType (some o) = true := by
          simp only [isMarker, hv, Bool.true_and, decide_eq_true_eq]
          exact hm
        have hs : stampSpec c pktType (prev, o) = none := by
          simp only [stampSpec]
          rw [if_neg (fun hc => hc.2.1 hm)]
        rw [sanitizeLoop_cons_marker c pktType o os _ hv hm] at h
        cases hn : isMarker c pktType prev
        · simp only [hn, Bool.false_eq_true, if_false] at h
          rw [← hmk] at h
          rw [hs]
          exact ih (some o) out h
        · simp [hn] at h
      · have hmk : isMarker c pktType (some o) = false := by
          simp only [isMarker, hv, Bool.true_and, decide_eq_false_iff_not]
          exact hm
        by_cases hp : o.Type_ = c.OptionPadding
        · have hs : stampSpec c pktType (prev, o) = none := by
            simp only [stampSpec]
            rw [if_neg (fun hc => hc.2.2 hp)]
          rw [sanitizeLoop_cons_padding c pktType o os _ hv hm hp, ← hmk] at h
          rw [hs]
          exact ih (some o) out h
        · rw [sanitizeLoop_cons_emit c pktType o os _ hv hm hp] at h
          cases hr : sanitizeLoop c pktType os false with
          | error e => simp [hr, Except.map] at h
          | ok r =>
            simp only [hr, Except.map, Except.ok.injEq] at h
            have hr2 := hr
            rw [← hmk] at hr2
            have hih := ih (some o) r hr2
            have hs : stampSpec c pktType (prev, o) =
                some { o with Mandatory := o.Mandatory || isMarker c pktType prev } := by
              simp only [stampSpec]
              rw [if_pos ⟨hv, hm, hp⟩]
            rw [hs, ← hih, ← h]
            cases hn : isMarker c pktType prev <;> simp
    · have hv2 : c.isOptionValidForType o.Type_ pktType = false := by
        simpa using hv
      have hmk : isMarker c pktType (some o) = false := by simp [isMarker, hv2]
      have hs : stampSpec c pktType (prev, o) = none := by
        simp only [stampSpec]
        rw [if_neg (fun hc => hv hc.1)]
      rw [sanitizeLoop_cons_invalid c pktType o os _ hv2] at h
      cases hn : isMarker c pktType prev
      · simp only [hn, Bool.false_eq_true, if_false] at h
        rw [← hmk] at h
        rw [hs]
        exact ih (some o) out h
      · simp [hn] at h

/-- C9 (counterexample): a Mandatory marker followed by an option of type 40 yields that
option with `Mandatory = true`, which is no element of the input, so the output is not a
subsequence of the input. -/
theorem sanitizeOptions_output_not_sublist :
    sanitizeOptions rfcCatalog 0 [⟨1, [], false⟩, ⟨40, [7], false⟩] =
      .ok [⟨40, [7], true⟩] ∧
    ¬ List.Sublist [(⟨40, [7], true⟩ : WireOption)] [⟨1, [], false⟩, ⟨40, [7], false⟩] := by
  constructor
  · rfl
  · decide

/-- C9 (amended): for every packet type and every input option list on which
`sanitizeOptions` succeeds, no option in the output has type `OptionPadding` or
`OptionMandatory`, every output option satisfies `isOptionValidForType` for the given packet
type, and the output, compared on `Type` and `Data`, is a subsequence of the input in the
same order. -/
theorem sanitizeOptions_emits (c : Catalog) (pktType : Int) (opts out : List WireOption)
    (h : sanitizeOptions c pktType opts = .ok out) :
    (∀ o ∈ out, o.Type_ ≠ c.OptionPadding ∧ o.Type_ ≠ c.OptionMandatory ∧
        c.isOptionValidForType o.Type_ pktType = true) ∧
      (out.map optKey).Sublist (opts.map optKey) :=
  sanitizeLoop_emits c pktType opts false out h

/-- C9 (witness): a marker, an option of type 40, Padding, an option of type 41. -/
theorem sanitizeOptions_emits_witness :
    sanitizeOptions rfcCatalog 0
        [⟨1, [], false⟩, ⟨40, [7], false⟩, ⟨0, [], false⟩, ⟨41, [8], false⟩] =
      .ok [⟨40, [7], true⟩, ⟨41, [8], false⟩] ∧
    ([(⟨40, [7], true⟩ : WireOption), ⟨41, [8], false⟩].map optKey).Sublist
      ([(⟨1, [], false⟩ : WireOption), ⟨40, [7], false⟩, ⟨0, [], false⟩,
        ⟨41, [8], false⟩].map optKey) :=
  ⟨rfl, (sanitizeOptions_emits rfcCatalog 0
    [⟨1, [], false⟩, ⟨40, [7], false⟩, ⟨0, [], false⟩, ⟨41, [8], false⟩]
    [⟨40, [7], true⟩, ⟨41, [8], false⟩] rfl).2⟩

/-- C10 (counterexample): an input option whose `Mandatory` field is already true and that
no marker precedes is emitted with `Mandatory = true`, although the flag is false when it is
emitted. -/
theorem sanitizeOptions_keeps_input_mandatory :
    sanitizeOptions rfcCatalog 0 [⟨40, [7], true⟩] = .ok [⟨40, [7], true⟩] ∧
    isMarker rfcCatalog 0 none = false := by
  constructor <;> rfl

/-- C10 (amended): for every input option list on which `sanitizeOptions` succeeds, the
output consists, in order, of the input options that are valid for the packet type and are
neither Mandatory markers nor Padding; each has `Mandatory` true when it is immediately
preceded in the input by a Mandatory marker valid for the packet type, and otherwise keeps
the `Mandatory` field of the input option; `Type` and `Data` are copied unchanged. -/
theorem sanitizeOptions_stamps (c : Catalog) (pktType : Int) (opts out : List WireOption)
    (h : sanitizeOptions c pktType opts = .ok out) :
    out = ((none :: opts.map some).zip opts).filterMap (stampSpec c pktType) ∧
    (∀ p q, stampSpec c pktType p = some q →
      q.Type_ = p.2.Type_ ∧ q.Data = p.2.Data ∧
      q.Mandatory = (p.2.Mandatory || isMarker c pktType p.1)) :=
  ⟨sanitizeLoop_stamps c pktType opts none out h, by
    intro p q hq
    unfold stampSpec at hq
    split at hq
    · simp only [Option.some.injEq] at hq
      subst hq
      exact ⟨rfl, rfl, rfl⟩
    · simp at hq⟩

/-- C10 (witness): a marker, an option of type 40, an option of type 41. -/
theorem sanitizeOptions_stamps_witness :
    sanitizeOptions rfcCatalog 0 [⟨1, [], false⟩, ⟨40, [7], false⟩, ⟨41, [8], false⟩] =
      .ok [⟨40, [7], true⟩, ⟨41, [8], false⟩] ∧
    [(⟨40, [7], true⟩ : WireOption), ⟨41, [8], false⟩] =
      ((none :: [(⟨1, [], false⟩ : WireOption), ⟨40, [7], false⟩, ⟨41, [8], false⟩].map
        some).zip [⟨1, [], false⟩, ⟨40, [7], false⟩, ⟨41, [8], false⟩]).filterMap
        (stampSpec rfcCatalog 0) :=
  ⟨rfl, (sanitizeOptions_stamps rfcCatalog 0
    [⟨1, [], false⟩, ⟨40, [7], false⟩, ⟨41, [8], false⟩]
    [⟨40, [7], true⟩, ⟨41, [8], false⟩] rfl).1⟩

/-! ## `sanitizeOptions`: when it fails -/

theorem hasMisplacedMarker_nil (c : Catalog) (pktType : Int) :
    ¬ hasMisplacedMarker c pktType [] := by
  rintro ⟨pre, m, post, h, -, -⟩
  cases pre <;> simp at h

theorem hasMisplacedMarker_cons (c : Catalog) (pktType : Int) (o : WireOption)
    (os : List WireOption) :
    hasMisplacedMarker c pktType (o :: os) ↔
      (o.Type_ = c.OptionMandatory ∧ failsAfterMarker c pktType os) ∨
        hasMisplacedMarker c pktType os := by
  constructor
  · rintro ⟨pre, m, post, h, hm, hf⟩
    cases pre with
    | nil =>
      simp only [List.nil_append, List.cons.injEq] at h
      obtain ⟨rfl, rfl⟩ := h
      exact Or.inl ⟨hm, hf⟩
    | cons p pre2 =>
      simp only [List.cons_append, List.cons.injEq] at h
      obtain ⟨rfl, rfl⟩ := h
      exact Or.inr ⟨pre2, m, post, rfl, hm, hf⟩
  · rintro (⟨hm, hf⟩ | ⟨pre, m, post, rfl, hm, hf⟩)
    · exact ⟨[], o, os, rfl, hm, hf⟩
    · exact ⟨o :: pre, m, post, rfl, hm, hf⟩

theorem sanitizeLoop_errOption_iff (c : Catalog) (pktType : Int)
    (hM : c.isOptionValidForType c.OptionMandatory pktType = true) :
    ∀ (opts : List WireOption) (nim : Bool),
      sanitizeLoop c pktType opts nim = .error Err.ErrOption ↔
        (nim = true ∧ failsAfterMarker c pktType opts) ∨
          hasMisplacedMarker c pktType opts := by
  intro opts
  induction opts with
  | nil =>
    intro nim
    have hn := hasMisplacedMarker_nil c pktType
    cases nim <;> simp [sanitizeLoop, failsAfterMarker, hn]
  | cons o os ih =>
    intro nim
    rw [hasMisplacedMarker_cons]
    by_cases hv : c.isOptionValidForType o.Type_ pktType = true
    · by_cases hm : o.Type_ = c.OptionMandatory
      · rw [sanitizeLoop_cons_marker c pktType o os nim hv hm]
        cases nim
        · simp only [Bool.false_eq_true, if_false, false_and, false_or]
          rw [ih true]
          simp [hm]
        · simp [failsAfterMarker, hm]
      · have hloop : sanitizeLoop c pktType (o :: os) nim = .error Err.ErrOption ↔
            sanitizeLoop c pktType os false = .error Err.ErrOption := by
          by_cases hp : o.Type_ = c.OptionPadding
          · rw [sanitizeLoop_cons_padding c pktType o os nim hv hm hp]
          · rw [sanitizeLoop_cons_emit c pktType o os nim hv hm hp]
            cases sanitizeLoop c pktType os false <;> simp [Except.map]
        rw [hloop, ih false]
        simp [failsAfterMarker, hm, hv]
    · have hv2 : c.isOptionValidForType o.Type_ pktType = false := by
        simpa using hv
      have hm : o.Type_ ≠ c.OptionMandatory := by
        intro h
        rw [h] at hv
        exact hv hM
      rw [sanitizeLoop_cons_invalid c pktType o os nim hv2]
      cases nim
      · simp only [Bool.false_eq_true, if_false, false_and, false_or]
        rw [ih false]
        simp [hm]
      · simp [failsAfterMarker, hv2]

theorem sanitizeLoop_ok_or_errOption (c : Catalog) (pktType : Int) :
    ∀ (opts : List WireOption) (nim : Bool),
      (∃ out, sanitizeLoop c pktType opts nim = .ok out) ∨
        sanitizeLoop c pktType opts nim = .error Err.ErrOption := by
  intro opts
  induction opts with
  | nil =>
    intro nim
    cases nim <;> simp [sanitizeLoop]
  | cons o os ih =>
    intro nim
    by_cases hv : c.isOptionValidForType o.Type_ pktType = true
    · by_cases hm : o.Type_ = c.OptionMandatory
      · rw [sanitizeLoop_cons_marker c pktType o os nim hv hm]
        cases nim
        · simpa using ih true
        · simp
      · by_cases hp : o.Type_ = c.OptionPadding
        · rw [sanitizeLoop_cons_padding c pktType o os nim hv hm hp]
          exact ih false
        · rw [sanitizeLoop_cons_emit c pktType o os nim hv hm hp]
          rcases ih false with ⟨out, h⟩ | h
          · exact Or.inl ⟨_, by rw [h]; rfl⟩
          · exact Or.inr (by rw [h]; rfl)
    · have hv2 : c.isOptionValidForType o.Type_ pktType = false := by
        simpa using hv
      rw [sanitizeLoop_cons_invalid c pktType o os nim hv2]
      cases nim
      · simpa using ih false
      · simp

/-- C11: for every packet type for which Mandatory and Padding are accepted by
`isOptionValidForType`, and every option list, `sanitizeOptions` returns `ErrOption` if and
only if some Mandatory marker in the list is immediately followed by another Mandatory
marker, or by an option that is not valid for the packet type, or is the last element of the
list; in every other case it succeeds. A Mandatory marker followed by Padding (the two
constants being distinct) is not an error and marks nothing: the list sanitizes as if both
were absent. -/
theorem sanitizeOptions_errOption_iff (c : Catalog) (pktType : Int)
    (opts : List WireOption)
    (hM : c.isOptionValidForType c.OptionMandatory pktType = true)
    (hP : c.isOptionValidForType c.OptionPadding pktType = true) :
    (sanitizeOptions c pktType opts = .error Err.ErrOption ↔
      hasMisplacedMarker c pktType opts) ∧
    (¬ hasMisplacedMarker c pktType opts →
      ∃ out, sanitizeOptions c pktType opts = .ok out) ∧
    (c.OptionPadding ≠ c.OptionMandatory →
      ∀ (m p : WireOption) (os : List WireOption), m.Type_ = c.OptionMandatory →
      p.Type_ = c.OptionPadding →
      ¬ failsAfterMarker c pktType (p :: os) ∧
      sanitizeOptions c pktType (m :: p :: os) = sanitizeOptions c pktType os) := by
  have hiff : sanitizeOptions c pktType opts = .error Err.ErrOption ↔
      hasMisplacedMarker c pktType opts := by
    unfold sanitizeOptions
    rw [sanitizeLoop_errOption_iff c pktType hM opts false]
    simp
  refine ⟨hiff, ?_, ?_⟩
  · intro hno
    rcases sanitizeLoop_ok_or_errOption c pktType opts false with h | h
    · exact h
    · exact absurd (hiff.mp h) hno
  · intro hne m p os hm hp
    have hvm : c.isOptionValidForType m.Type_ pktType = true := by rw [hm]; exact hM
    have hvp : c.isOptionValidForType p.Type_ pktType = true := by rw [hp]; exact hP
    have hpm : p.Type_ ≠ c.OptionMandatory := by rw [hp]; exact hne
    constructor
    · simp [failsAfterMarker, hpm, hvp]
    · unfold sanitizeOptions
      rw [sanitizeLoop_cons_marker c pktType m (p :: os) false hvm hm]
      simp only [Bool.false_eq_true, if_false]
      rw [sanitizeLoop_cons_padding c pktType p os true hvp hpm hp]

/-- C11 (witness): with the RFC numbering, a marker that ends the list fails and a marker
followed by Padding does not. -/
theorem sanitizeOptions_errOption_iff_witness :
    (sanitizeOptions rfcCatalog 0 [⟨40, [7], false⟩, ⟨1, [], false⟩] = .error Err.ErrOption ↔
      hasMisplacedMarker rfcCatalog 0 [⟨40, [7], false⟩, ⟨1, [], false⟩]) ∧
    sanitizeOptions rfcCatalog 0 [⟨40, [7], false⟩, ⟨1, [], false⟩] = .error Err.ErrOption ∧
    sanitizeOptions rfcCatalog 0 [⟨1, [], false⟩, ⟨0, [], false⟩, ⟨40, [7], false⟩] =
      .ok [⟨40, [7], false⟩] :=
  ⟨(sanitizeOptions_errOption_iff rfcCatalog 0 [⟨40, [7], false⟩, ⟨1, [], false⟩] rfl
    rfl).1, rfl, rfl⟩

/-! ## `OnRead` during slow start -/

/-- C17 (counterexample): with `x_old = 2^31`, `tld = 1`, `now = 1e9`, `rtt = 100e6` and a
receive rate of `2^31 - 1` the call stores `x = 43800`, while the true double gives
`max(min(2^32, 4294967294), 43800) = 4294967294`; and with `now = -2^63`, `tld = 1`,
`rtt = 5`, where `now - tld < rtt` over the integers, the call still replaces `x` and `tld`. -/
theorem OnRead_slow_start_wraps :
    ((rateCalculator.mk 2147483648 1 0 rateCalculator.zero.xRecvSet).OnRead [] 1000000000
        1460 2147483647 100000000 0 false false false =
        some (⟨43800, 1000000000, 4294967294,
          ⟨[⟨2147483647, 1000000000⟩, xRecvEntry.zero, xRecvEntry.zero]⟩⟩, 43800) ∧
      max (min (2 * 2147483648) 4294967294) 43800 = 4294967294) ∧
    (((-9223372036854775808 : Int) - 1 < 5) ∧
      ((rateCalculator.mk 100 1 0 rateCalculator.zero.xRecvSet).OnRead []
        (-9223372036854775808) 1460 7 5 0 false false false).map
          (fun r => (r.1.tld, r.2)) = some (-9223372036854775808, 4121638912)) := by
  decide

/-- C17 (amended): for every rate-calculator state with `tld > 0` and every `OnRead` call
with `lossRateInv = 0` for which `now - tld` is inside the `int64` range and the call
returns: if `now - tld >= rtt` then after the call
`x = max(min((2*x_old) mod 2^32, recv_limit), initRate(ss, rtt))`, which is
`max(min(2*x_old, recv_limit), initRate(ss, rtt))` whenever `x_old < 2^31`, with `recv_limit`
the value set by this call, and `tld = now`; if `now - tld < rtt` then `x` and `tld` are
unchanged and the previous `x` is returned. The call returns exactly when `Update` returns
(on the path that is not data-limited) and, if `now - tld >= rtt`, `initRate` returns. -/
theorem OnRead_slow_start (qTable : List Int) (t : rateCalculator) (now : Int) (ss : Nat)
    (x_recv : Nat) (rtt : Int) (newLoss dataLimited lossIncrease : Bool)
    (htld : 0 < t.tld) (hr1 : -9223372036854775808 ≤ now - t.tld)
    (hr2 : now - t.tld < 9223372036854775808) :
    (∀ r, t.OnRead qTable now ss x_recv rtt 0 newLoss dataLimited lossIncrease = some r →
      (rtt ≤ now - t.tld →
        ∃ ir, initRate ss rtt = some ir ∧
          r.2 = max (min (u32 (2 * t.x)) r.1.recv_limit) ir ∧
          (t.x < 2147483648 → r.2 = max (min (2 * t.x) r.1.recv_limit) ir) ∧
          r.1.x = r.2 ∧ r.1.tld = now) ∧
      (now - t.tld < rtt → r.2 = t.x ∧ r.1.x = t.x ∧ r.1.tld = t.tld)) ∧
    ((t.OnRead qTable now ss x_recv rtt 0 newLoss dataLimited lossIncrease).isSome ↔
      ((dataLimited = true ∨ (t.xRecvSet.Update now x_recv rtt).isSome) ∧
        (rtt ≤ now - t.tld → (initRate ss rtt).isSome))) := by
  have htld2 : ¬ t.tld ≤ 0 := by omega
  have hw : wrap64 (now - t.tld) = now - t.tld := wrap64_of_range _ hr1 hr2
  constructor
  · intro r hr
    unfold rateCalculator.OnRead at hr
    simp only [htld2, if_false, lt_irrefl, gt_iff_lt] at hr
    obtain ⟨t1, ht1, hr⟩ := Option.bind_eq_some.mp hr
    have ht1x : t1.x = t.x ∧ t1.tld = t.tld := by
      cases dataLimited <;> cases lossIncrease <;>
        simp only [Bool.false_eq_true, if_false, if_true, Option.map_eq_some',
          Option.some.injEq] at ht1
      all_goals
        obtain ⟨s, -, rfl⟩ := ht1
        exact ⟨rfl, rfl⟩
    rw [ht1x.2, hw] at hr
    by_cases hge : rtt ≤ now - t.tld
    · simp only [ge_iff_le, hge, if_true] at hr
      obtain ⟨ir, hir, hr⟩ := Option.map_eq_some'.mp hr
      subst hr
      refine ⟨fun _ => ⟨ir, hir, ?_, ?_, rfl, rfl⟩, fun h => absurd hge (by omega)⟩
      · simp only [maxu32_eq_max, minu32_eq_min, ht1x.1]
      · intro hx
        simp only [maxu32_eq_max, minu32_eq_min, ht1x.1, u32_of_lt (2 * t.x) (by omega)]
    · simp only [ge_iff_le, hge, if_false, Option.some.injEq] at hr
      subst hr
      exact ⟨fun h => absurd h hge, fun _ => ⟨ht1x.1, ht1x.1, ht1x.2⟩⟩
  · unfold rateCalculator.OnRead
    simp only [htld2, if_false, lt_irrefl, gt_iff_lt]
    by_cases hge : rtt ≤ now - t.tld
    · cases hi : initRate ss rtt <;> cases dataLimited <;> cases lossIncrease <;>
        cases hu : t.xRecvSet.Update now x_recv rtt <;> simp [hw, hge]
    · cases dataLimited <;> cases lossIncrease <;>
        cases hu : t.xRecvSet.Update now x_recv rtt <;> simp [hw, hge]

/-- C17 (witness): the state left by the first feedback of the scenario (`x = 43800`,
`tld = 1e9`), then `OnRead(2e9, 1460, 120000, 100e6, 0)` on the path that is not
data-limited: `x` doubles to 87600. -/
theorem OnRead_slow_start_witness :
    (0 : Int) < 1000000000 ∧
    (rateCalculator.mk 43800 1000000000 2147483647 rateCalculator.zero.xRecvSet).OnRead []
        2000000000 1460 120000 100000000 0 false false false =
      some (⟨87600, 2000000000, 240000,
        ⟨[⟨120000, 2000000000⟩, xRecvEntry.zero, xRecvEntry.zero]⟩⟩, 87600) ∧
    ∃ ir, initRate 1460 100000000 = some ir ∧
      87600 = max (min (2 * 43800) 240000) ir := by
  refine ⟨by decide, by decide, ?_⟩
  obtain ⟨ir, h1, _, h3, _⟩ :=
    ((OnRead_slow_start [] (rateCalculator.mk 43800 1000000000 2147483647
      rateCalculator.zero.xRecvSet) 2000000000 1460 120000 100000000 false false false
      (by decide) (by decide) (by decide)).1
      (⟨87600, 2000000000, 240000,
        ⟨[⟨120000, 2000000000⟩, xRecvEntry.zero, xRecvEntry.zero]⟩⟩, 87600) (by decide)).1
      (by decide)
  exact ⟨ir, h1, h3 (by decide)⟩

/-! ## `Update`: the index written -/

theorem evict_time (now rtt : Int) (e : xRecvEntry) :
    (evict now rtt e).Time = 0 ∨ (evict now rtt e).Time = e.Time := by
  unfold evict
  split
  · exact Or.inl rfl
  · exact Or.inr rfl

theorem findSlot_three_range (a b c : xRecvEntry) (now : Int) :
    ((0 ≤ findSlot [a, b, c] 0 (-1) now ∧ findSlot [a, b, c] 0 (-1) now < 3) ∨
        findSlot [a, b, c] 0 (-1) now = -1) ∧
      (findSlot [a, b, c] 0 (-1) now = -1 ↔
        (0 < a.Time ∧ now < a.Time) ∧ (0 < b.Time ∧ now < b.Time) ∧
          (0 < c.Time ∧ now < c.Time)) := by
  simp only [findSlot]
  split_ifs
  all_goals refine ⟨by omega, ⟨fun h => ?_, fun h => ?_⟩⟩
  all_goals first
    | omega
    | exact absurd h (by omega)
    | exact h.elim

/-- C19: in `xRecvSet.Update` the index `j` of the slot written is within `0..2` unless,
after eviction, all three slots are occupied with timestamps strictly greater than `now`, in
which case `j` stays `-1` and the array access is out of range; in particular `Update` never
indexes out of range whenever every stored timestamp is `<= now`. -/
theorem Update_index_in_range (t : xRecvSet) (now : Int) (x_recv : Nat) (rtt : Int)
    (hlen : t.set.length = X_RECV_SET_SIZE) :
    ((0 ≤ findSlot (t.set.map (evict now rtt)) 0 (-1) now ∧
        findSlot (t.set.map (evict now rtt)) 0 (-1) now < 3) ∨
      findSlot (t.set.map (evict now rtt)) 0 (-1) now = -1) ∧
    (findSlot (t.set.map (evict now rtt)) 0 (-1) now = -1 ↔
      ∀ e ∈ t.set.map (evict now rtt), 0 < e.Time ∧ now < e.Time) ∧
    ((t.Update now x_recv rtt).isSome ↔
      findSlot (t.set.map (evict now rtt)) 0 (-1) now ≠ -1) ∧
    ((∀ e ∈ t.set, e.Time ≤ now) → (t.Update now x_recv rtt).isSome) := by
  obtain ⟨l⟩ := t
  simp only [X_RECV_SET_SIZE] at hlen
  match l, hlen with
  | [a, b, c], _ =>
    have ha := evict_time now rtt a
    have hb := evict_time now rtt b
    have hc := evict_time now rtt c
    have hfs := findSlot_three_range (evict now rtt a) (evict now rtt b) (evict now rtt c) now
    simp only [xRecvSet.Update, List.map, List.length_cons, List.length_nil]
    generalize evict now rtt a = a2 at ha hb hc hfs ⊢
    generalize evict now rtt b = b2 at ha hb hc hfs ⊢
    generalize evict now rtt c = c2 at ha hb hc hfs ⊢
    generalize findSlot [a2, b2, c2] 0 (-1) now = j at hfs ⊢
    obtain ⟨hrange, hiff⟩ := hfs
    refine ⟨hrange, ?_, ?_, ?_⟩
    · rw [hiff]
      simp
    · by_cases hj : 0 ≤ j ∧ j < 3
      · have : 0 ≤ j ∧ j < ((0 + 1 + 1 + 1 : Nat) : Int) := by omega
        simp only [this, and_self, if_true, Option.isSome_some, true_iff]
        omega
      · have : ¬ (0 ≤ j ∧ j < ((0 + 1 + 1 + 1 : Nat) : Int)) := by omega
        simp only [this, if_false, Option.isSome_none, Bool.false_eq_true, false_iff,
          not_not]
        omega
    · intro hall
      have h1 := hall a (by simp)
      have h2 := hall b (by simp)
      have h3 := hall c (by simp)
      have hj : 0 ≤ j ∧ j < ((0 + 1 + 1 + 1 : Nat) : Int) := by
        have hne : j ≠ -1 := by
          rw [Ne, hiff]
          omega
        omega
      simp only [hj, and_self, if_true, Option.isSome_some]

/-- C19 (witness): three slots in the future of `now = 10`, where `j` stays `-1`, and the
same slots at `now = 30`, where a slot is written. -/
theorem Update_index_in_range_witness :
    (xRecvSet.mk [⟨1, 20⟩, ⟨2, 21⟩, ⟨3, 22⟩]).set.length = X_RECV_SET_SIZE ∧
    (xRecvSet.mk [⟨1, 20⟩, ⟨2, 21⟩, ⟨3, 22⟩]).Update 10 9 100 = none ∧
    ((xRecvSet.mk [⟨1, 20⟩, ⟨2, 21⟩, ⟨3, 22⟩]).Update 30 9 100).isSome :=
  ⟨by decide, by decide,
    (Update_index_in_range (xRecvSet.mk [⟨1, 20⟩, ⟨2, 21⟩, ⟨3, 22⟩]) 30 9 100
      (by decide)).2.2.2 (by decide)⟩

/-! ## `Close` -/

/-- C12 (evaluation at the failing input): called in state RESPOND, `Close` performs the
reset and then reaches `panic("unknown state")`; it does not return. -/
theorem Close_RESPOND_panics (c : Conn) :
    ({ c with state := State.RESPOND }).Close =
      (({ c with state := State.RESPOND }).reset ResetCode.ResetClosed ConnError.ErrEOF,
        CloseResult.panics ClosePanic.unknownState) ∧
    (Conn.mk State.RESPOND none [] false []).Close =
      (⟨State.CLOSED, some ConnError.ErrEOF, [Packet.Reset ResetCode.ResetClosed], true, []⟩,
        CloseResult.panics ClosePanic.unknownState) := by
  constructor <;> rfl

/-- C13: `Close` called in state PARTOPEN or OPEN injects a Close packet, leaves the
connection in state CLOSING and returns nil; `Close` called in state CLOSEREQ, CLOSING,
TIMEWAIT or CLOSED with a non-nil sticky error returns exactly that sticky error and changes
neither the state nor the sticky error, so that a repeated call returns the same error, and
it panics if and only if the sticky error is nil. -/
theorem Close_open_or_closing (c : Conn) :
    ((c.state = State.PARTOPEN ∨ c.state = State.OPEN) →
      c.Close.2 = CloseResult.returns none ∧ c.Close.1.state = State.CLOSING ∧
        c.Close.1.injected = c.injected ++ [Packet.Close]) ∧
    ((c.state = State.CLOSEREQ ∨ c.state = State.CLOSING ∨ c.state = State.TIMEWAIT ∨
        c.state = State.CLOSED) →
      (∀ e, c.err = some e →
        c.Close = (c, CloseResult.returns (some e)) ∧
          c.Close.1.Close = (c, CloseResult.returns (some e))) ∧
      ((∃ p, c.Close.2 = CloseResult.panics p) ↔ c.err = none)) := by
  obtain ⟨st, err, inj, torn, tms⟩ := c
  constructor
  · rintro (h | h) <;> simp only at h <;> subst h <;> exact ⟨rfl, rfl, rfl⟩
  · rintro (h | h | h | h) <;> simp only at h <;> subst h <;> cases err <;>
      simp [Conn.Close, Conn.closeSwitch]

/-- C13 (witness): `Close` on an open connection, and on a closed one with sticky error
EOF. -/
theorem Close_open_or_closing_witness :
    (Conn.mk State.OPEN none [] false []).Close.2 = CloseResult.returns none ∧
    (Conn.mk State.OPEN none [] false []).Close.1.state = State.CLOSING ∧
    (Conn.mk State.OPEN none [] false []).Close.1.injected = [] ++ [Packet.Close] ∧
    (Conn.mk State.CLOSED (some ConnError.ErrEOF) [] true []).Close =
      (Conn.mk State.CLOSED (some ConnError.ErrEOF) [] true [],
        CloseResult.returns (some ConnError.ErrEOF)) :=
  ⟨((Close_open_or_closing (Conn.mk State.OPEN none [] false [])).1 (Or.inr rfl)).1,
    ((Close_open_or_closing (Conn.mk State.OPEN none [] false [])).1 (Or.inr rfl)).2.1,
    ((Close_open_or_closing (Conn.mk State.OPEN none [] false [])).1 (Or.inr rfl)).2.2,
    (((Close_open_or_closing (Conn.mk State.CLOSED (some ConnError.ErrEOF) [] true [])).2
      (Or.inr (Or.inr (Or.inr rfl)))).1 ConnError.ErrEOF rfl).1⟩

/-! ## Timer tasks -/

/-- C18 (evaluation at the failing input): the task started by `gotoTIMEWAIT` does not read
the state; whatever the state is when it wakes (CLOSED, say), it calls `abortQuietly`. The
tasks started by `gotoLISTEN`, `gotoRESPOND`, `gotoREQUEST`, `gotoPARTOPEN` and `gotoCLOSING`
do nothing when the state they read is not their gating state. -/
theorem timerWake_TIMEWAIT_unguarded :
    (timerWake Timer.TIMEWAIT State.CLOSED false).1 = [Action.abortQuietly] ∧
    (∀ s expired, (timerWake Timer.TIMEWAIT s expired).1 = [Action.abortQuietly]) ∧
    (∀ tm s expired, tm ≠ Timer.TIMEWAIT → s ≠ tm.gate →
      timerWake tm s expired = ([], false)) := by
  refine ⟨rfl, fun _ _ => rfl, ?_⟩
  intro tm s expired htm hs
  cases tm <;> simp only [Timer.gate] at hs <;> simp [timerWake, hs] at htm ⊢

/-! ## `ReadGenericHeader` -/

theorem ReadGenericHeader_short (cd : Codec) (buf sourceIP destIP : List Nat)
    (protoNo : Int) (allow : Bool) (h : buf.length < 12) :
    ReadGenericHeader cd buf sourceIP destIP protoNo allow = some (.error Err.ErrSize) := by
  simp [ReadGenericHeader, readHeader, h]

/-- C14: `ReadGenericHeader` returns `ErrSize` and no header for every buffer shorter than
12 bytes, whatever the IP addresses, protocol number and short-seqno flag; and a buffer of
exactly 12 bytes that is a Data packet with `X = 0`, data offset 3 words, a verifying
checksum, and the short-sequence-number feature allowed decodes successfully with a 24-bit
`SeqNo` taken from bytes 9..11 and empty application data. -/
theorem ReadGenericHeader_size_boundary (cd : Codec) (buf sourceIP destIP : List Nat)
    (protoNo : Int) (allow : Bool) :
    (buf.length < 12 →
      ReadGenericHeader cd buf sourceIP destIP protoNo allow = some (.error Err.ErrSize)) ∧
    (buf.length = 12 →
      (((buf.getD 8 0 >>> 1) &&& 15 : Nat) : Int) = cd.Data → buf.getD 8 0 &&& 1 = 0 →
      buf.getD 4 0 = 3 →
      cd.areTypeAndXCompatible cd.Data false true = true →
      cd.calcFixedHeaderSize cd.Data false ≤ 12 →
      cd.calcAckNoSubheaderSize cd.Data false = 0 →
      cd.Data ≠ cd.Request → cd.Data ≠ cd.Response → cd.Data ≠ cd.Reset →
      cd.csumDone (cd.csumPartial
        (cd.csumAdd (cd.csumSum buf) (cd.csumPseudoIP sourceIP destIP protoNo buf.length))
        []) = 0 →
      ∃ gh, ReadGenericHeader cd buf sourceIP destIP protoNo true = some (.ok gh) ∧
        gh.Type_ = cd.Data ∧ gh.X = false ∧
        gh.SeqNo = buf.getD 9 0 * 65536 + buf.getD 10 0 * 256 + buf.getD 11 0 ∧
        ((∀ b ∈ buf, b < 256) → gh.SeqNo < 16777216) ∧
        gh.Data = []) := by
  refine ⟨ReadGenericHeader_short cd buf sourceIP destIP protoNo allow, ?_⟩
  intro hlen
  match buf, hlen with
  | [b0, b1, b2, b3, b4, b5, b6, b7, b8, b9, b10, b11], _ =>
    intro hty hx hoff hcompat hfixed hack hreq hresp hrst hcs
    simp only [List.getD_cons_succ, List.getD_cons_zero] at hty hx hoff
    subst hoff
    have hro : readOptions cd.catalog [] = .ok [] := by
      simp [readOptions, readLoop]
    have hso : sanitizeOptions cd.catalog cd.Data [] = .ok [] := by
      simp [sanitizeOptions, sanitizeLoop]
    have hhdr : readHeader cd [b0, b1, b2, b3, 3, b5, b6, b7, b8, b9, b10, b11] sourceIP
        destIP protoNo true =
        some (.ok ({ GenericHeader.zero with
          SourcePort := decode2ByteUint [b0, b1]
          DestPort := decode2ByteUint [b2, b3]
          CCVal := b5 >>> 4
          Type_ := cd.Data
          X := false
          SeqNo := decode3ByteUint [b9, b10, b11] }, 12, 12)) := by
      simp [readHeader, dataOffsetOf, decode1ByteUint, decodeBE, wireWordSize, hty, hx,
        hcompat, computeChecksum, calcChecksumAppCoverage, GenericHeader.zero, slice,
        readSeqNo, readAckNo, readCode, hack, hreq, hresp, hrst]
      have hcs2 := hcs
      simp only [List.length_cons, List.length_nil] at hcs2
      norm_num at hcs2
      rw [if_neg (not_lt.mpr hfixed), if_pos hcs2]
    have hsl : slice [b0, b1, b2, b3, 3, b5, b6, b7, b8, b9, b10, b11] 12 12 = some [] := by
      simp [slice]
    refine ⟨{ GenericHeader.zero with
        SourcePort := decode2ByteUint [b0, b1]
        DestPort := decode2ByteUint [b2, b3]
        CCVal := b5 >>> 4
        Type_ := cd.Data
        X := false
        SeqNo := decode3ByteUint [b9, b10, b11] }, ?_, rfl, rfl, ?_, ?_, ?_⟩
    · simp only [ReadGenericHeader, hhdr, hsl, hro, hso]
      simp [GenericHeader.zero]
    · simp only [List.getD_cons_succ, List.getD_cons_zero, decode3ByteUint, decodeBE,
        List.foldl_cons, List.foldl_nil]
      ring
    · intro hb
      have h9 := hb b9 (by simp)
      have h10 := hb b10 (by simp)
      have h11 := hb b11 (by simp)
      simp only [decode3ByteUint, decodeBE, List.foldl_cons, List.foldl_nil]
      omega
    · rfl

/-- C14 (witness): with the RFC numbering, a buffer of 11 bytes, and the 12-byte Data packet
`00 01 00 02 03 00 e4 c7 04 00 00 05` between 10.0.0.1 and 10.0.0.2, whose checksum
verifies. -/
theorem ReadGenericHeader_size_boundary_witness :
    ReadGenericHeader rfcCodec [0, 1, 0, 2, 3, 0, 228, 199, 4, 0, 0] [10, 0, 0, 1]
      [10, 0, 0, 2] 33 true = some (.error Err.ErrSize) ∧
    ∃ gh, ReadGenericHeader rfcCodec [0, 1, 0, 2, 3, 0, 228, 199, 4, 0, 0, 5] [10, 0, 0, 1]
        [10, 0, 0, 2] 33 true = some (.ok gh) ∧ gh.SeqNo = 5 ∧ gh.Data = [] := by
  refine ⟨(ReadGenericHeader_size_boundary rfcCodec [0, 1, 0, 2, 3, 0, 228, 199, 4, 0, 0]
    [10, 0, 0, 1] [10, 0, 0, 2] 33 true).1 (by decide), ?_⟩
  obtain ⟨gh, h1, _, _, h4, _, h6⟩ :=
    (ReadGenericHeader_size_boundary rfcCodec [0, 1, 0, 2, 3, 0, 228, 199, 4, 0, 0, 5]
      [10, 0, 0, 1] [10, 0, 0, 2] 33 true).2 (by decide) (by decide) (by decide)
      (by decide) (by decide) (by decide) (by decide) (by decide) (by decide) (by decide)
      (by decide)
  exact ⟨gh, h1, h4, h6⟩

theorem computeChecksum_full (cd : Codec) (gh : GenericHeader)
    (buf sourceIP destIP : List Nat) (protoNo : Int) (dOff : Nat) (h0 : gh.CsCov = 0)
    (hle : dOff ≤ buf.length) :
    computeChecksum cd gh buf sourceIP destIP protoNo dOff =
      some (.ok (cd.csumDone (cd.csumPartial
        (cd.csumAdd (cd.csumSum (buf.take dOff))
          (cd.csumPseudoIP sourceIP destIP protoNo buf.length))
        (buf.drop dOff)))) := by
  have h1 : ¬ ((buf.length : Int) - (dOff : Int) < 0) := by omega
  have h2 : ((buf.length : Int) - (dOff : Int)).toNat = buf.length - dOff := by omega
  have h3 : dOff + (buf.length - dOff) = buf.length := by omega
  have h4 : (buf.drop dOff).take (buf.length - dOff) = buf.drop dOff :=
    List.take_of_length_le (by simp)
  simp [computeChecksum, calcChecksumAppCoverage, h0, h1, h2, h3, h4, slice, hle]

theorem readHeader_ok (cd : Codec) (buf sourceIP destIP : List Nat) (protoNo : Int)
    (allow : Bool) (r : GenericHeader × Nat × Nat)
    (h : readHeader cd buf sourceIP destIP protoNo allow = some (.ok r)) :
    r.2.2 = dataOffsetOf buf ∧ dataOffsetOf buf ≤ buf.length ∧
      cd.csumDone (cd.csumPartial
        (cd.csumAdd (cd.csumSum (buf.take (dataOffsetOf buf)))
          (cd.csumPseudoIP sourceIP destIP protoNo buf.length))
        (buf.drop (dataOffsetOf buf))) = 0 := by
  simp only [readHeader] at h
  split_ifs at h with h1 h2 h3
  · simp at h
  · simp at h
  · simp at h
  · have hle : dataOffsetOf buf ≤ buf.length := by
      by_contra hc
      exact h3 (Or.inr (by omega))
    rw [computeChecksum_full cd _ buf sourceIP destIP protoNo _ (by rfl) hle] at h
    simp only at h
    split_ifs at h with h4
    · simp at h
    · refine ⟨?_, hle, not_not.mp h4⟩
      split at h
      · simp at h
      · simp at h
      · split at h
        · simp at h
        · simp at h
        · split at h
          · simp at h
          · simp only [Option.some.injEq, Except.ok.injEq] at h
            rw [← h]

theorem readHeader_checksum_nonzero (cd : Codec) (buf sourceIP destIP : List Nat)
    (protoNo : Int) (allow : Bool)
    (hcs : cd.csumDone (cd.csumPartial
        (cd.csumAdd (cd.csumSum (buf.take (dataOffsetOf buf)))
          (cd.csumPseudoIP sourceIP destIP protoNo buf.length))
        (buf.drop (dataOffsetOf buf))) ≠ 0) :
    ∃ e, readHeader cd buf sourceIP destIP protoNo allow = some (.error e) := by
  simp only [readHeader]
  split_ifs with h1 h2 h3
  · exact ⟨_, rfl⟩
  · exact ⟨_, rfl⟩
  · exact ⟨_, rfl⟩
  · have hle : dataOffsetOf buf ≤ buf.length := by
      by_contra hc
      exact h3 (Or.inr (by omega))
    rw [computeChecksum_full cd _ buf sourceIP destIP protoNo _ (by rfl) hle]
    simp only
    rw [if_pos hcs]
    exact ⟨_, rfl⟩

theorem ReadGenericHeader_ok (cd : Codec) (buf sourceIP destIP : List Nat) (protoNo : Int)
    (allow : Bool) (gh : GenericHeader)
    (h : ReadGenericHeader cd buf sourceIP destIP protoNo allow = some (.ok gh)) :
    ∃ gh0 k dOff region opts,
      readHeader cd buf sourceIP destIP protoNo allow = some (.ok (gh0, k, dOff)) ∧
      slice buf k dOff = some region ∧ readOptions cd.catalog region = .ok opts ∧
      gh = { gh0 with Data := buf.drop dOff } := by
  unfold ReadGenericHeader at h
  split at h
  · simp at h
  · simp at h
  · rename_i gh0 k dOff hrh
    split at h
    · simp at h
    · rename_i region hsl
      split at h
      · simp at h
      · rename_i opts hro
        split at h
        · simp at h
        · simp only [Option.some.injEq, Except.ok.injEq] at h
          exact ⟨gh0, k, dOff, region, opts, hrh, hsl, hro, h.symm⟩

theorem ReadGenericHeader_no_options (cd : Codec) (buf sourceIP destIP : List Nat)
    (protoNo : Int) (allow : Bool) (gh0 : GenericHeader) (k : Nat)
    (h : readHeader cd buf sourceIP destIP protoNo allow = some (.ok (gh0, k, k)))
    (hk : k ≤ buf.length) :
    ReadGenericHeader cd buf sourceIP destIP protoNo allow =
      some (.ok { gh0 with Data := buf.drop k }) := by
  have hsl : slice buf k k = some [] := by simp [slice, hk]
  have hro : readOptions cd.catalog [] = .ok [] := by simp [readOptions, readLoop]
  have hso : sanitizeOptions cd.catalog gh0.Type_ [] = .ok [] := by
    simp [sanitizeOptions, sanitizeLoop]
  simp only [ReadGenericHeader, h, hsl, hro, hso]

/-- What `ReadGenericHeader` does verify: if it returns a header then the folded checksum
computed over `buf[0:dataOffset]`, the IP pseudo-header (source IP, dest IP, protocol,
`len(buf)`) and all of the application data `buf[dataOffset:]` (the coverage the function
computes from `gh.CsCov`, which is 0) is zero; and whenever that checksum is nonzero the
result is an error and no header is returned. -/
theorem ReadGenericHeader_checksum (cd : Codec) (buf sourceIP destIP : List Nat)
    (protoNo : Int) (allow : Bool) :
    (∀ gh, ReadGenericHeader cd buf sourceIP destIP protoNo allow = some (.ok gh) →
      computeChecksum cd GenericHeader.zero buf sourceIP destIP protoNo (dataOffsetOf buf)
        = some (.ok 0) ∧
      cd.csumDone (cd.csumPartial
        (cd.csumAdd (cd.csumSum (buf.take (dataOffsetOf buf)))
          (cd.csumPseudoIP sourceIP destIP protoNo buf.length))
        (buf.drop (dataOffsetOf buf))) = 0) ∧
    (cd.csumDone (cd.csumPartial
        (cd.csumAdd (cd.csumSum (buf.take (dataOffsetOf buf)))
          (cd.csumPseudoIP sourceIP destIP protoNo buf.length))
        (buf.drop (dataOffsetOf buf))) ≠ 0 →
      ∃ e, ReadGenericHeader cd buf sourceIP destIP protoNo allow = some (.error e)) := by
  constructor
  · intro gh h
    obtain ⟨gh0, k, dOff, region, opts, hrh, -, -, -⟩ :=
      ReadGenericHeader_ok cd buf sourceIP destIP protoNo allow gh h
    obtain ⟨-, hle, hcs⟩ := readHeader_ok cd buf sourceIP destIP protoNo allow _ hrh
    refine ⟨?_, hcs⟩
    rw [computeChecksum_full cd _ buf sourceIP destIP protoNo _ rfl hle, hcs]
  · intro hcs
    obtain ⟨e, he⟩ := readHeader_checksum_nonzero cd buf sourceIP destIP protoNo allow hcs
    exact ⟨e, by simp [ReadGenericHeader, he]⟩

/-- An instance of the above: the 12-byte Data packet of the boundary case is accepted and its
checksum is zero; with the checksum bytes cleared it is rejected. -/
theorem ReadGenericHeader_checksum_witness :
    ReadGenericHeader rfcCodec [0, 1, 0, 2, 3, 0, 228, 199, 4, 0, 0, 5] [10, 0, 0, 1]
        [10, 0, 0, 2] 33 true = some (.ok ⟨1, 2, 0, 0, 2, false, 5, 0, 0, [], []⟩) ∧
    computeChecksum rfcCodec GenericHeader.zero [0, 1, 0, 2, 3, 0, 228, 199, 4, 0, 0, 5]
      [10, 0, 0, 1] [10, 0, 0, 2] 33 (dataOffsetOf [0, 1, 0, 2, 3, 0, 228, 199, 4, 0, 0, 5])
      = some (.ok 0) ∧
    ∃ e, ReadGenericHeader rfcCodec [0, 1, 0, 2, 3, 0, 0, 0, 4, 0, 0, 5] [10, 0, 0, 1]
        [10, 0, 0, 2] 33 true = some (.error e) :=
  ⟨ReadGenericHeader_no_options rfcCodec [0, 1, 0, 2, 3, 0, 228, 199, 4, 0, 0, 5]
      [10, 0, 0, 1] [10, 0, 0, 2] 33 true ⟨1, 2, 0, 0, 2, false, 5, 0, 0, [], []⟩ 12
      (by rfl) (by decide),
    ((ReadGenericHeader_checksum rfcCodec [0, 1, 0, 2, 3, 0, 228, 199, 4, 0, 0, 5]
      [10, 0, 0, 1] [10, 0, 0, 2] 33 true).1 ⟨1, 2, 0, 0, 2, false, 5, 0, 0, [], []⟩
      (ReadGenericHeader_no_options rfcCodec [0, 1, 0, 2, 3, 0, 228, 199, 4, 0, 0, 5]
        [10, 0, 0, 1] [10, 0, 0, 2] 33 true ⟨1, 2, 0, 0, 2, false, 5, 0, 0, [], []⟩ 12
        (by rfl) (by decide))).1,
    (ReadGenericHeader_checksum rfcCodec [0, 1, 0, 2, 3, 0, 0, 0, 4, 0, 0, 5]
      [10, 0, 0, 1] [10, 0, 0, 2] 33 true).2 (by decide)⟩

/-- C15 (evaluation at the failing input): the 20-byte Data packet
`00 01 00 02 03 01 c4 9e 04 00 00 05 09 09 09 09 07 07 07 07` carries `CsCov = 1`, so the
covered prefix of its application data is the first 4 of the 8 bytes; the folded checksum
over `buf[0:12]`, the pseudo-header and that prefix is 3598, not zero, and the packet is
accepted. -/
theorem ReadGenericHeader_accepts_nonzero_covered_checksum :
    ReadGenericHeader rfcCodec
        [0, 1, 0, 2, 3, 1, 196, 158, 4, 0, 0, 5, 9, 9, 9, 9, 7, 7, 7, 7] [10, 0, 0, 1]
        [10, 0, 0, 2] 33 true =
      some (.ok ⟨1, 2, 0, 0, 2, false, 5, 0, 0, [], [9, 9, 9, 9, 7, 7, 7, 7]⟩) ∧
    ([0, 1, 0, 2, 3, 1, 196, 158, 4, 0, 0, 5, 9, 9, 9, 9, 7, 7, 7, 7] : List Nat).getD 5 0
      &&& 15 = 1 ∧
    calcChecksumAppCoverage 1 8 = .ok 4 ∧
    coveredChecksumSpec rfcCodec
        [0, 1, 0, 2, 3, 1, 196, 158, 4, 0, 0, 5, 9, 9, 9, 9, 7, 7, 7, 7] [10, 0, 0, 1]
        [10, 0, 0, 2] 33 = some (.ok 3598) := by
  refine ⟨?_, by decide, by rfl, by rfl⟩
  exact ReadGenericHeader_no_options rfcCodec
    [0, 1, 0, 2, 3, 1, 196, 158, 4, 0, 0, 5, 9, 9, 9, 9, 7, 7, 7, 7] [10, 0, 0, 1]
    [10, 0, 0, 2] 33 true ⟨1, 2, 0, 0, 2, false, 5, 0, 0, [], []⟩ 12 (by rfl) (by decide)

/-- C16 (evaluation at the failing inputs): the 12-byte Data packet with `CsCov = 1` on the
wire (byte 5 = `01`) and no application data is accepted, although `4*CsCov = 4` exceeds the
application data length 0, for which the coverage rule gives the Numeric error; and the
20-byte Data packet with `CsCov = 1` whose checksum verifies over the first 4 of its 8
application data bytes is rejected with `ErrChecksum`, because all 8 bytes are summed. -/
theorem ReadGenericHeader_ignores_wire_CsCov :
    (ReadGenericHeader rfcCodec [0, 1, 0, 2, 3, 1, 228, 198, 4, 0, 0, 5] [10, 0, 0, 1]
        [10, 0, 0, 2] 33 true = some (.ok ⟨1, 2, 0, 0, 2, false, 5, 0, 0, [], []⟩) ∧
      ([0, 1, 0, 2, 3, 1, 228, 198, 4, 0, 0, 5] : List Nat).getD 5 0 &&& 15 = 1 ∧
      calcChecksumAppCoverage 1 0 = .error Err.ErrNumeric) ∧
    (ReadGenericHeader rfcCodec
        [0, 1, 0, 2, 3, 1, 210, 172, 4, 0, 0, 5, 9, 9, 9, 9, 7, 7, 7, 7] [10, 0, 0, 1]
        [10, 0, 0, 2] 33 true = some (.error Err.ErrChecksum) ∧
      rfcCodec.csumDone (rfcCodec.csumPartial
        (rfcCodec.csumAdd (rfcCodec.csumSum [0, 1, 0, 2, 3, 1, 210, 172, 4, 0, 0, 5])
          (rfcCodec.csumPseudoIP [10, 0, 0, 1] [10, 0, 0, 2] 33 20))
        [9, 9, 9, 9]) = 0) := by
  refine ⟨⟨?_, by decide, by rfl⟩, by rfl, by decide⟩
  exact ReadGenericHeader_no_options rfcCodec [0, 1, 0, 2, 3, 1, 228, 198, 4, 0, 0, 5]
    [10, 0, 0, 1] [10, 0, 0, 2] 33 true ⟨1, 2, 0, 0, 2, false, 5, 0, 0, [], []⟩ 12
    (by rfl) (by decide)

/-- C20 (counterexample): a 16-byte Data packet whose options region `buf[12:16]` is four
Padding bytes is rejected with `ErrSemantic` when short sequence numbers are not allowed, and
with `ErrChecksum` when its checksum bytes are cleared; not with `ErrAlign`. -/
theorem ReadGenericHeader_long_options_other_error :
    (slice [0, 1, 0, 2, 4, 0, 227, 195, 4, 0, 0, 5, 0, 0, 0, 0] 12
        (dataOffsetOf [0, 1, 0, 2, 4, 0, 227, 195, 4, 0, 0, 5, 0, 0, 0, 0])).map List.length
      = some 4 ∧
    ReadGenericHeader rfcCodec [0, 1, 0, 2, 4, 0, 227, 195, 4, 0, 0, 5, 0, 0, 0, 0]
      [10, 0, 0, 1] [10, 0, 0, 2] 33 false = some (.error Err.ErrSemantic) ∧
    ReadGenericHeader rfcCodec [0, 1, 0, 2, 4, 0, 0, 0, 4, 0, 0, 5, 0, 0, 0, 0]
      [10, 0, 0, 1] [10, 0, 0, 2] 33 true = some (.error Err.ErrChecksum) := by
  refine ⟨by decide, by rfl, by rfl⟩

/-- C20 (amended): whenever `ReadGenericHeader` succeeds, the options region
`buf[k:dataOffset]` that it passed to `readOptions` (`k` = end of the code subheader) is
shorter than 4 bytes; consequently no packet whose options region is 4 bytes or longer is
accepted, and every such packet that passes the checks made before the options are read
(size, type/X compatibility, data offset bounds, checksum, zero padding) is rejected with
`ErrAlign`, even when its options region is correctly 4-byte aligned and well-formed. -/
theorem ReadGenericHeader_options_region (cd : Codec) (buf sourceIP destIP : List Nat)
    (protoNo : Int) (allow : Bool) :
    (∀ gh, ReadGenericHeader cd buf sourceIP destIP protoNo allow = some (.ok gh) →
      ∃ gh0 k dOff region,
        readHeader cd buf sourceIP destIP protoNo allow = some (.ok (gh0, k, dOff)) ∧
        slice buf k dOff = some region ∧ region.length < 4) ∧
    (∀ gh0 k dOff region,
      readHeader cd buf sourceIP destIP protoNo allow = some (.ok (gh0, k, dOff)) →
      slice buf k dOff = some region → 4 ≤ region.length →
      ReadGenericHeader cd buf sourceIP destIP protoNo allow = some (.error Err.ErrAlign)) := by
  constructor
  · intro gh h
    obtain ⟨gh0, k, dOff, region, opts, hrh, hsl, hro, -⟩ :=
      ReadGenericHeader_ok cd buf sourceIP destIP protoNo allow gh h
    refine ⟨gh0, k, dOff, region, hrh, hsl, ?_⟩
    by_contra hc
    have := (readOptions_eq_errAlign_iff cd.catalog region).mpr (by omega)
    rw [this] at hro
    simp at hro
  · intro gh0 k dOff region hrh hsl hlen
    have := (readOptions_eq_errAlign_iff cd.catalog region).mpr hlen
    simp [ReadGenericHeader, hrh, hsl, this]

/-- C20 (witness): the 16-byte Data packet with four Padding bytes as options and a
verifying checksum is rejected with `ErrAlign`. -/
theorem ReadGenericHeader_options_region_witness :
    readHeader rfcCodec [0, 1, 0, 2, 4, 0, 227, 195, 4, 0, 0, 5, 0, 0, 0, 0]
      [10, 0, 0, 1] [10, 0, 0, 2] 33 true =
      some (.ok (⟨1, 2, 0, 0, 2, false, 5, 0, 0, [], []⟩, 12, 16)) ∧
    ReadGenericHeader rfcCodec [0, 1, 0, 2, 4, 0, 227, 195, 4, 0, 0, 5, 0, 0, 0, 0]
      [10, 0, 0, 1] [10, 0, 0, 2] 33 true = some (.error Err.ErrAlign) :=
  ⟨by rfl,
    (ReadGenericHeader_options_region rfcCodec
      [0, 1, 0, 2, 4, 0, 227, 195, 4, 0, 0, 5, 0, 0, 0, 0] [10, 0, 0, 1] [10, 0, 0, 2] 33
      true).2 ⟨1, 2, 0, 0, 2, false, 5, 0, 0, [], []⟩ 12 16 [0, 0, 0, 0] (by rfl) (by rfl)
      (by decide)⟩

end GoDCCP
